import Mathlib

/-!
Verification of the layer computation model of the convnetjs TypeScript port.

The definitions below are a shallow embedding of the repository's source files
(`src/src/convnet_layers_nonlinearities.ts`, `src/src/convnet_layers_pool.ts`,
`src/src/convnet_net.ts`, and the unnamed parts holding the dropout,
dot-product and loss layers).  JavaScript numbers are modelled as rationals
(`ℚ`); the transcendental functions `Math.exp`, `Math.log` and `Math.pow` are
kept abstract as explicit function parameters; JavaScript `Float64Array`
buffers are modelled as `List ℚ`, whose out-of-range `List.set` is a no-op,
matching typed-array semantics.  The tensor container `Vol`
(`convnet_vol.ts`) and the helper `util.zeros` are not part of the provided
sources and are modelled from the specification.
-/

namespace ConvNetJS

/-- Modelled from the spec: `util.zeros n` (from the missing `convnet_util.ts`)
returns a zero-filled numeric buffer of length `n`. -/
def zeros (n : Nat) : List ℚ :=
  List.replicate n 0

/-- Modelled from the spec: the tensor container `Vol` of the missing
`convnet_vol.ts`.  A 3-D activation volume with dimensions `sx` (width),
`sy` (height), `depth`, stored as a flat sequence of `sx*sy*depth` values in
index order `((sx*y)+x)*depth + d`, together with a parallel gradient
buffer `dw` of the same length. -/
structure Vol where
  sx : Nat
  sy : Nat
  depth : Nat
  w : List ℚ
  dw : List ℚ
deriving DecidableEq

/-- Flat index of coordinate `(x, y, d)`: `((sx*y)+x)*depth + d`. -/
def Vol.flatIdx (v : Vol) (x y d : Int) : Int :=
  (((v.sx : Int) * y) + x) * (v.depth : Int) + d

/-- Modelled from the spec: `Vol.get(x,y,d)` reads `w[((sx*y)+x)*depth+d]`.
All call sites embedded below guard the coordinates, so the index is
nonnegative and in range whenever the source would be. -/
def Vol.get (v : Vol) (x y d : Int) : ℚ :=
  v.w.getD (v.flatIdx x y d).toNat 0

/-- Modelled from the spec: `Vol.clone()` copies the dimensions and both flat
buffers into an independent volume (value-level identity). -/
def Vol.clone (v : Vol) : Vol :=
  ⟨v.sx, v.sy, v.depth, v.w, v.dw⟩

/-- Modelled from the spec: `Vol.cloneAndZero()` keeps the dimensions and
zero-fills both buffers. -/
def Vol.cloneAndZero (v : Vol) : Vol :=
  ⟨v.sx, v.sy, v.depth, zeros (v.sx * v.sy * v.depth), zeros (v.sx * v.sy * v.depth)⟩

/-- Modelled from the spec: the serialized form of a `Vol` is a
dimension-tagged flat array of weights; gradients are never serialized. -/
structure SerializedVol where
  sx : Nat
  sy : Nat
  depth : Nat
  w : List ℚ
deriving DecidableEq

/-- Modelled from the spec: `Vol.toJSON` records dimensions and weights. -/
def Vol.toJSON (v : Vol) : SerializedVol :=
  ⟨v.sx, v.sy, v.depth, v.w⟩

/-- Modelled from the spec: `Vol.fromJSON` restores dimensions and weights and
starts with zero gradients. -/
def Vol.fromJSON (j : SerializedVol) : Vol :=
  ⟨j.sx, j.sy, j.depth, j.w, zeros j.w.length⟩

/-! ## ReluLayer (src/src/convnet_layers_nonlinearities.ts, lines 31-43) -/

/-- `ReluLayer.forward` exactly as written in the source: the statements
`this.out_act = V2; return this.out_act;` sit INSIDE the `for` loop body, so
the loop body runs at most once: only element 0 is thresholded at zero and
the clone is returned immediately.  For an empty buffer the loop never runs
and the function returns `undefined`, modelled as `none`. -/
def reluForward (V : Vol) : Option Vol :=
  let V2 := V.clone
  match V2.w with
  | [] => none
  | a :: rest => some { V2 with w := (if a < 0 then 0 else a) :: rest }

/-! ## Output size formula (ConvLayer / PoolLayer constructors) -/

/-- The computed output spatial size used by both the `ConvLayer` constructor
(src/unnamed/part_000, lines 198-199) and the `PoolLayer` constructor
(src/src/convnet_layers_pool.ts, lines 56-57):
`Math.floor((in_s + pad*2 - f)/stride + 1)`. -/
def outSize (inS f stride pad : Int) : Int :=
  Int.floor (((inS : ℚ) + (pad : ℚ) * 2 - (f : ℚ)) / (stride : ℚ) + 1)

/-- State of a `ConvLayer` (src/unnamed/part_000): the fields read by
`forward`, `toJSON` and `fromJSON`. -/
structure ConvLayer where
  out_sx : Int
  out_sy : Int
  out_depth : Nat
  sx : Int
  sy : Int
  stride : Int
  pad : Int
  in_depth : Nat
  l1_decay_mul : ℚ
  l2_decay_mul : ℚ
  filters : List Vol
  biases : Vol
deriving DecidableEq

/-- Constructor options for `ConvLayer` (interface `ConvOptions`); `none`
stands for a field left `undefined`. -/
structure ConvOpts where
  sx : Int
  filters : Nat
  in_depth : Nat
  in_sx : Int
  in_sy : Int
  sy : Option Int := none
  stride : Option Int := none
  pad : Option Int := none
  bias_pref : Option ℚ := none
  l1_decay_mul : Option ℚ := none
  l2_decay_mul : Option ℚ := none
deriving DecidableEq

/-- The `ConvLayer` constructor (src/unnamed/part_000, lines 178-206).
Filter weights are randomly initialized in the source (spec: Gaussian scaled
by `sqrt(1/n)`); the random contents are irrelevant to every claim proved in
this file and are abstracted to zeroes. -/
def mkConvLayer (opt : ConvOpts) : ConvLayer :=
  let sy := opt.sy.getD opt.sx
  let stride := opt.stride.getD 1
  let pad := opt.pad.getD 0
  { out_sx := outSize opt.in_sx opt.sx stride pad
    out_sy := outSize opt.in_sy sy stride pad
    out_depth := opt.filters
    sx := opt.sx
    sy := sy
    stride := stride
    pad := pad
    in_depth := opt.in_depth
    l1_decay_mul := opt.l1_decay_mul.getD 0
    l2_decay_mul := opt.l2_decay_mul.getD 1
    filters := List.replicate opt.filters
      ⟨opt.sx.toNat, sy.toNat, opt.in_depth,
        zeros (opt.sx.toNat * sy.toNat * opt.in_depth),
        zeros (opt.sx.toNat * sy.toNat * opt.in_depth)⟩
    biases := ⟨1, 1, opt.filters, List.replicate opt.filters (opt.bias_pref.getD 0),
      zeros opt.filters⟩ }

/-- State of a `PoolLayer` (src/src/convnet_layers_pool.ts). -/
structure PoolLayer where
  out_sx : Int
  out_sy : Int
  out_depth : Nat
  sx : Int
  sy : Int
  stride : Int
  pad : Int
  in_depth : Nat
  switchx : List Int
  switchy : List Int
deriving DecidableEq

/-- Constructor options for `PoolLayer` (interface `PoolOptions`). -/
structure PoolOpts where
  sx : Int
  in_depth : Nat
  in_sx : Int
  in_sy : Int
  sy : Option Int := none
  stride : Option Int := none
  pad : Option Int := none
deriving DecidableEq

/-- The `PoolLayer` constructor (src/src/convnet_layers_pool.ts, lines 39-62):
`stride` defaults to 2, `pad` to 0, `sy` to `sx`; the switch buffers are
zero-filled with length `out_sx*out_sy*out_depth`. -/
def mkPoolLayer (opt : PoolOpts) : PoolLayer :=
  let sy := opt.sy.getD opt.sx
  let stride := opt.stride.getD 2
  let pad := opt.pad.getD 0
  let osx := outSize opt.in_sx opt.sx stride pad
  let osy := outSize opt.in_sy sy stride pad
  { out_sx := osx
    out_sy := osy
    out_depth := opt.in_depth
    sx := opt.sx
    sy := sy
    stride := stride
    pad := pad
    in_depth := opt.in_depth
    switchx := List.replicate (osx * osy * opt.in_depth).toNat 0
    switchy := List.replicate (osx * osy * opt.in_depth).toNat 0 }

/-- One candidate position of the pooling window scan
(src/src/convnet_layers_pool.ts, lines 80-92): the coordinate `q = (ox, oy)`
contributes only when `oy >= 0 && oy < V.sy && ox >= 0 && ox < V.sx`, and
replaces the running state `(a, winx, winy)` only when `V.get(ox,oy,d) > a`. -/
def poolWindowStep (V : Vol) (d : Nat) (st : ℚ × Int × Int) (q : Int × Int) : ℚ × Int × Int :=
  if 0 ≤ q.2 ∧ q.2 < (V.sy : Int) ∧ 0 ≤ q.1 ∧ q.1 < (V.sx : Int) then
    let v := V.get q.1 q.2 d
    if v > st.1 then (v, q.1, q.2) else st
  else st

/-- The coordinates scanned by the inner two loops of `PoolLayer.forward` for
the window with top-left corner `(x, y)`: `fx` is the outer loop, `fy` the
inner one. -/
def poolWindowPairs (x y : Int) (fsx fsy : Nat) : List (Int × Int) :=
  (List.range fsx).flatMap fun fx => (List.range fsy).map fun fy => (x + fx, y + fy)

/-- The inner two loops of `PoolLayer.forward`
(src/src/convnet_layers_pool.ts, lines 77-96): the running maximum `a` is
seeded with the sentinel `-99999` and the winning coordinates `(winx, winy)`
with `(-1, -1)`. -/
def poolWindow (V : Vol) (d : Nat) (x y : Int) (fsx fsy : Nat) : ℚ × Int × Int :=
  (poolWindowPairs x y fsx fsy).foldl (poolWindowStep V d) (-99999, -1, -1)

/-- The activations of channel `d` at the in-bounds coordinates of a scan
list, in scan order. -/
def inBoundsVals (V : Vol) (d : Nat) (l : List (Int × Int)) : List ℚ :=
  (l.filter fun q => decide (0 ≤ q.2) && decide (q.2 < (V.sy : Int)) &&
      decide (0 ≤ q.1) && decide (q.1 < (V.sx : Int))).map
    fun q => V.get q.1 q.2 d

/-- The in-bounds activations of the pooling window at top-left `(x, y)`. -/
def poolWindowVals (V : Vol) (d : Nat) (x y : Int) (fsx fsy : Nat) : List ℚ :=
  inBoundsVals V d (poolWindowPairs x y fsx fsy)

/-- The output volume of `PoolLayer.forward`
(src/src/convnet_layers_pool.ts, lines 64-102): output position `(ax,ay,d)`
(flat index `((out_sx*ay)+ax)*out_depth + d`) holds the window maximum at
top-left `(stride*ax - pad, stride*ay - pad)`.  The loop writes each output
position exactly once via `A.set(ax, ay, d, a)`, so the buffer is built
positionally here; the switch buffers are written by the same loop but never
read by it, and do not influence this output. -/
def poolForwardOut (st : PoolLayer) (V : Vol) : Vol :=
  let osx := st.out_sx.toNat
  let osy := st.out_sy.toNat
  let od := st.out_depth
  ⟨osx, osy, od,
    (List.range (osx * osy * od)).map fun k =>
      let d := k % od
      let ax := (k / od) % osx
      let ay := k / (od * osx)
      (poolWindow V d (st.stride * (ax : Int) - st.pad) (st.stride * (ay : Int) - st.pad)
        st.sx.toNat st.sy.toNat).1,
    zeros (osx * osy * od)⟩

/-! ## DropoutLayer (src/unnamed/part_000, lines 23-94) -/

/-- State of a `DropoutLayer`. -/
structure DropoutLayer where
  out_sx : Nat
  out_sy : Nat
  out_depth : Nat
  drop_prob : ℚ
  dropped : List Bool
deriving DecidableEq

/-- Constructor options for `DropoutLayer`. -/
structure DropoutOpts where
  in_sx : Nat
  in_sy : Nat
  in_depth : Nat
  drop_prob : Option ℚ := none
deriving DecidableEq

/-- The `DropoutLayer` constructor (src/unnamed/part_000, lines 29-40):
`drop_prob` defaults to 1/2; `dropped` is `zeros(out_sx*out_sy*out_depth)`
mapped through `(v) => v !== 0`. -/
def mkDropoutLayer (opt : DropoutOpts) : DropoutLayer :=
  { out_sx := opt.in_sx
    out_sy := opt.in_sy
    out_depth := opt.in_depth
    drop_prob := opt.drop_prob.getD (1/2)
    dropped := (zeros (opt.in_sx * opt.in_sy * opt.in_depth)).map (fun v => v != 0) }

/-- `DropoutLayer.forward` (src/unnamed/part_000, lines 41-58).  The global
`Math.random()` stream is modelled as an explicit list of samples `rng`,
consumed one per element only in the training branch.  Returns the output
volume, the updated `dropped` mask and the unconsumed remainder of the
stream. -/
def dropoutForward (st : DropoutLayer) (rng : List ℚ) (is_training : Bool) (V : Vol) :
    Vol × List Bool × List ℚ :=
  let V2 := V.clone
  if is_training then
    let r := (List.range V.w.length).foldl
      (fun (acc : List ℚ × List Bool × List ℚ) i =>
        match acc.2.2 with
        | [] => acc
        | r :: rest =>
          if r < st.drop_prob then (acc.1.set i 0, acc.2.1.set i true, rest)
          else (acc.1, acc.2.1.set i false, rest))
      (V2.w, st.dropped, rng)
    ({ V2 with w := r.1 }, r.2.1, r.2.2)
  else
    ({ V2 with w := V2.w.map (fun x => x * st.drop_prob) }, st.dropped, rng)

/-! ## MaxoutLayer state and (de)serialization
(src/src/convnet_layers_nonlinearities.ts, lines 152-266) -/

/-- State of a `MaxoutLayer`: the fields read by `forward`, `backward`,
`toJSON` and `fromJSON`.  The `switches` buffer records, for each output
unit, the flat input index that won the group maximum. -/
structure MaxoutLayer where
  out_sx : Nat
  out_sy : Nat
  out_depth : Nat
  group_size : Nat
  switches : List Int
deriving DecidableEq

/-- Constructor options for `MaxoutLayer` (interface `MaxoutOptions`). -/
structure MaxoutOpts where
  in_sx : Nat
  in_sy : Nat
  in_depth : Nat
  group_size : Option Nat := none
deriving DecidableEq

/-- The `MaxoutLayer` constructor (lines 157-168): `group_size` defaults
to 2, `out_depth = Math.floor(in_depth / group_size)` (natural division),
and `switches = zeros(out_sx * out_sy * out_depth)`. -/
def mkMaxoutLayer (opt : MaxoutOpts) : MaxoutLayer :=
  let gs := opt.group_size.getD 2
  let od := opt.in_depth / gs
  { out_sx := opt.in_sx
    out_sy := opt.in_sy
    out_depth := od
    group_size := gs
    switches := List.replicate (opt.in_sx * opt.in_sy * od) 0 }

/-- Serialized form of a `MaxoutLayer` (interface `SerializedMaxout`). -/
structure SerializedMaxout where
  out_sx : Nat
  out_sy : Nat
  out_depth : Nat
  group_size : Nat
deriving DecidableEq

/-- `MaxoutLayer.toJSON` (lines 247-255). -/
def MaxoutLayer.toJSON (st : MaxoutLayer) : SerializedMaxout :=
  ⟨st.out_sx, st.out_sy, st.out_depth, st.group_size⟩

/-- `MaxoutLayer.fromJSON` (lines 256-265).  Note the source reallocates the
switch buffer as `util.zeros(this.group_size)` — sized by `group_size`, not
by `out_sx * out_sy * out_depth`. -/
def MaxoutLayer.fromJSON (j : SerializedMaxout) : MaxoutLayer :=
  { out_sx := j.out_sx
    out_sy := j.out_sy
    out_depth := j.out_depth
    group_size := j.group_size
    switches := List.replicate j.group_size 0 }

/-- The inner group scan of the flat (1x1) path of `MaxoutLayer.forward`
(src/src/convnet_layers_nonlinearities.ts, lines 178-191): running maximum
over `V.w[ix] .. V.w[ix+group_size-1]` together with the winning offset
`ai`, scanning `j = 1 .. group_size-1` from the seed `(V.w[ix], 0)`. -/
def maxoutFlatGroup (V : Vol) (ix gs : Nat) : ℚ × Nat :=
  (List.range' 1 (gs - 1)).foldl
    (fun p j => if V.w.getD (ix + j) 0 > p.1 then (V.w.getD (ix + j) 0, j) else p)
    (V.w.getD ix 0, 0)

/-- The inner group scan of the coordinate path of `MaxoutLayer.forward`
(lines 196-206), reading through `V.get(x, y, ix + j)`. -/
def maxoutCoordGroup (V : Vol) (x y ix gs : Nat) : ℚ × Nat :=
  (List.range' 1 (gs - 1)).foldl
    (fun (p : ℚ × Nat) (j : Nat) =>
      if V.get (x : Int) (y : Int) ((ix + j : Nat) : Int) > p.1
      then (V.get (x : Int) (y : Int) ((ix + j : Nat) : Int), j) else p)
    (V.get (x : Int) (y : Int) (ix : Int), 0)

/-- The flat (`out_sx === 1 && out_sy === 1`) path of `MaxoutLayer.forward`
(lines 177-191): the output buffer of `V2 = new Vol(out_sx, out_sy,
out_depth, 0.0)` written at flat index `i`, and the layer's switch buffer
written at `i` with the winning input index `ix + ai`. -/
def maxoutForwardFlat (st : MaxoutLayer) (V : Vol) : List ℚ × List Int :=
  (List.range st.out_depth).foldl
    (fun (acc : List ℚ × List Int) i =>
      (acc.1.set i (maxoutFlatGroup V (i * st.group_size) st.group_size).1,
        acc.2.set i ((i * st.group_size +
          (maxoutFlatGroup V (i * st.group_size) st.group_size).2 : Nat) : Int)))
    (zeros (st.out_sx * st.out_sy * st.out_depth), st.switches)

/-- The `(x, y, i)` iteration order of the coordinate path, with the switch
counter `n` equal to the position in this list. -/
def maxoutTriples (sx sy n : Nat) : List (Nat × Nat × Nat) :=
  (List.range sx).flatMap fun x =>
    (List.range sy).flatMap fun y => (List.range n).map fun i => (x, y, i)

/-- The coordinate path of `MaxoutLayer.forward` (lines 192-214): the output
buffer is written through `V2.set(x, y, i, a)` (flat index
`((out_sx*y)+x)*out_depth + i`), the switch buffer through the running
counter `n`. -/
def maxoutForwardCoord (st : MaxoutLayer) (V : Vol) : List ℚ × List Int :=
  let r := (maxoutTriples V.sx V.sy st.out_depth).foldl
    (fun (acc : List ℚ × List Int × Nat) t =>
      (acc.1.set (((st.out_sx * t.2.1) + t.1) * st.out_depth + t.2.2)
          (maxoutCoordGroup V t.1 t.2.1 (t.2.2 * st.group_size) st.group_size).1,
        acc.2.1.set acc.2.2 ((t.2.2 * st.group_size +
          (maxoutCoordGroup V t.1 t.2.1 (t.2.2 * st.group_size) st.group_size).2 : Nat) : Int),
        acc.2.2 + 1))
    (zeros (st.out_sx * st.out_sy * st.out_depth), st.switches, 0)
  (r.1, r.2.1)

/-- The flat path of `MaxoutLayer.backward` (lines 225-229):
`V.dw[this.switches[i]] = V2.dw[i]` over a gradient buffer zeroed to the
input's length; `out_dw` is the gradient buffer of the cached output. -/
def maxoutBackwardFlat (st : MaxoutLayer) (V : Vol) (out_dw : List ℚ) : List ℚ :=
  (List.range st.out_depth).foldl
    (fun dw i => dw.set (st.switches.getD i 0).toNat (out_dw.getD i 0))
    (zeros V.w.length)

/-- The coordinate path of `MaxoutLayer.backward` (lines 230-242):
`V.set_grad(x, y, switches[n], V2.get_grad(x, y, i))`, iterating `x, y`
over the cached output's dimensions (`out_sx`, `out_sy`). -/
def maxoutBackwardCoord (st : MaxoutLayer) (V : Vol) (out_dw : List ℚ) : List ℚ :=
  ((maxoutTriples st.out_sx st.out_sy st.out_depth).foldl
    (fun (acc : List ℚ × Nat) t =>
      (acc.1.set (((V.sx : Int) * t.2.1 + t.1) * V.depth +
            st.switches.getD acc.2 0).toNat
          (out_dw.getD (((st.out_sx * t.2.1) + t.1) * st.out_depth + t.2.2) 0),
        acc.2 + 1))
    (zeros V.w.length, 0)).1

/-- Concrete maxout layer for the C9 witness: 1x1 spatial output, two
groups of size two. -/
def mxSt : MaxoutLayer :=
  ⟨1, 1, 2, 2, [0, 0]⟩

/-- Concrete input volume for the C9 witness: a 1x1x4 volume. -/
def mxVol : Vol :=
  ⟨1, 1, 4, [1, 3, 2, 0], [0, 0, 0, 0]⟩

/-- Serialized form of a `PoolLayer` (interface `SerializedPool`); `pad` is
treated as possibly absent by `fromJSON` (backwards compatibility). -/
structure SerializedPool where
  out_sx : Int
  out_sy : Int
  out_depth : Nat
  sx : Int
  sy : Int
  stride : Int
  in_depth : Nat
  pad : Option Int
deriving DecidableEq

/-- `PoolLayer.toJSON` (src/src/convnet_layers_pool.ts, lines 131-143). -/
def PoolLayer.toJSON (st : PoolLayer) : SerializedPool :=
  ⟨st.out_sx, st.out_sy, st.out_depth, st.sx, st.sy, st.stride, st.in_depth, some st.pad⟩

/-- `PoolLayer.fromJSON` (src/src/convnet_layers_pool.ts, lines 144-158):
`pad` defaults to 0 when absent; both switch buffers are re-initialized to
`zeros(out_sx * out_sy * out_depth)`. -/
def PoolLayer.fromJSON (j : SerializedPool) : PoolLayer :=
  { out_sx := j.out_sx
    out_sy := j.out_sy
    out_depth := j.out_depth
    sx := j.sx
    sy := j.sy
    stride := j.stride
    pad := j.pad.getD 0
    in_depth := j.in_depth
    switchx := List.replicate (j.out_sx * j.out_sy * j.out_depth).toNat 0
    switchy := List.replicate (j.out_sx * j.out_sy * j.out_depth).toNat 0 }

/-- Serialized form of a `DropoutLayer` (interface `SerializedDropout`). -/
structure SerializedDropout where
  out_sx : Nat
  out_sy : Nat
  out_depth : Nat
  drop_prob : ℚ
deriving DecidableEq

/-- `DropoutLayer.toJSON` (src/unnamed/part_000, lines 73-81). -/
def DropoutLayer.toJSON (st : DropoutLayer) : SerializedDropout :=
  ⟨st.out_sx, st.out_sy, st.out_depth, st.drop_prob⟩

/-- `DropoutLayer.fromJSON` (src/unnamed/part_000, lines 82-93): the mask is
rebuilt as `zeros(out_sx * out_sy * out_depth)` mapped through
`(v) => v !== 0`, i.e. all-false. -/
def DropoutLayer.fromJSON (j : SerializedDropout) : DropoutLayer :=
  { out_sx := j.out_sx
    out_sy := j.out_sy
    out_depth := j.out_depth
    drop_prob := j.drop_prob
    dropped := (zeros (j.out_sx * j.out_sy * j.out_depth)).map (fun v => v != 0) }

/-! ## Loss layers (src/unnamed/part_001) -/

/-- State of a `SoftmaxLayer` (src/unnamed/part_001, lines 26-110). -/
structure SoftmaxLayer where
  out_sx : Nat
  out_sy : Nat
  out_depth : Nat
  num_inputs : Nat
deriving DecidableEq

/-- State of an `SVMLayer` (src/unnamed/part_001, lines 205-272). -/
structure SVMLayer where
  out_sx : Nat
  out_sy : Nat
  out_depth : Nat
  num_inputs : Nat
deriving DecidableEq

/-- State of a `RegressionLayer` (src/unnamed/part_001, lines 122-197). -/
structure RegressionLayer where
  out_sx : Nat
  out_sy : Nat
  out_depth : Nat
  num_inputs : Nat
deriving DecidableEq

/-- JavaScript indexing `es[y]` for an arbitrary integer index: the value
when `0 <= y < es.length`, and `undefined` (here `none`) otherwise. -/
def jsGet (es : List ℚ) (y : Int) : Option ℚ :=
  if 0 ≤ y ∧ y < (es.length : Int) then some (es.getD y.toNat 0) else none

/-- The gradient loop of `SoftmaxLayer.backward` (src/unnamed/part_001,
lines 80-84): `x.dw[i] = -(1{i==y} - es[i]) = es[i] - 1{i==y}` for each
`i < out_depth` (`out_depth = es.length` for the probability vector cached
by `forward`). -/
def softmaxBackwardGrad (es : List ℚ) (y : Int) : List ℚ :=
  (List.range es.length).map fun i => es.getD i 0 - (if (i : Int) = y then 1 else 0)

/-- `SoftmaxLayer.backward` (src/unnamed/part_001, lines 74-88), acting on
the probability vector `es` cached by `forward`.  The codomain is an
`Except` so that a thrown JavaScript error would be representable as
`Except.error`; the body contains no `throw`, so the embedding always
returns `Except.ok`.  The returned loss is `-Math.log(this.es[y])`: for `y`
outside the vector, `this.es[y]` is `undefined` and the loss is `NaN`
(modelled as `none`); otherwise it is `-(log es[y])` with `Math.log` the
abstract parameter `log`. -/
def softmaxBackward (log : ℚ → ℚ) (es : List ℚ) (y : Int) :
    Except Unit (List ℚ × Option ℚ) :=
  Except.ok (softmaxBackwardGrad es y, (jsGet es y).map fun p => -(log p))

/-- One iteration of the `SVMLayer.backward` loop (src/unnamed/part_001,
lines 238-247) at class index `i`, with `w` the cached input activations and
`y` the ground-truth index: `i == y` is skipped; otherwise with
`ydiff = -w[y] + w[i] + 1.0` positive, the gradient gains `+1` at `i` and
`-1` at `y` and the loss gains `ydiff`. -/
def svmStep (w : List ℚ) (y : Nat) (st : List ℚ × ℚ) (i : Nat) : List ℚ × ℚ :=
  if i = y then st
  else
    let ydiff := -(w.getD y 0) + w.getD i 0 + 1
    if 0 < ydiff then
      let dw1 := st.1.set i (st.1.getD i 0 + 1)
      let dw2 := dw1.set y (dw1.getD y 0 - 1)
      (dw2, st.2 + ydiff)
    else st

/-- `SVMLayer.backward` (src/unnamed/part_001, lines 226-250): gradient
buffer zeroed to the input's length, then the loop over all classes
(`out_depth`, which equals `w.length` for the input cached by `forward`);
returns the final gradient buffer and accumulated loss. -/
def svmBackward (w : List ℚ) (y : Nat) : List ℚ × ℚ :=
  (List.range w.length).foldl (svmStep w y) (zeros w.length, 0)

/-! ## Net.makeLayers desugaring (src/src/convnet_net.ts, lines 53-102) -/

/-- Layer-type tags of the layer-specification language
(src/src/index.ts / typings). -/
inductive LType
  | input
  | conv
  | fc
  | pool
  | relu
  | sigmoid
  | tanh
  | maxout
  | dropout
  | softmax
  | svm
  | regression
  | lrn
deriving DecidableEq

/-- The activation names admitted by the sugared specification type
(`'relu' | 'tanh' | 'sigmoid' | 'maxout'`, src/unnamed/part_002 lines 87-89). -/
inductive Activation
  | relu
  | sigmoid
  | tanh
  | maxout
deriving DecidableEq

/-- A sugared layer specification: the `type` tag plus the fields the
desugaring pass inspects; `none` models an absent field. -/
structure SugarDef where
  type : LType
  num_classes : Option Nat := none
  num_neurons : Option Nat := none
  activation : Option Activation := none
  group_size : Option Nat := none
  drop_prob : Option ℚ := none
  bias_pref : Option ℚ := none
deriving DecidableEq

/-- The in-place `bias_pref` defaulting applied to `fc`/`conv` specs
(src/src/convnet_net.ts, lines 71-80): when the field is absent it becomes
0.1 for a relu activation and 0.0 otherwise. -/
def setBiasPref (d : SugarDef) : SugarDef :=
  if (d.type = LType.fc ∨ d.type = LType.conv) ∧ d.bias_pref = none then
    { d with bias_pref := some (if d.activation = some Activation.relu then 1/10 else 0) }
  else d

/-- The fully-connected spec pushed before a loss-type spec
(src/src/convnet_net.ts, lines 65-69). -/
def lossPre (d : SugarDef) : List SugarDef :=
  if d.type = LType.softmax ∨ d.type = LType.svm ∨ d.type = LType.regression then
    [{ type := LType.fc, num_neurons := d.num_classes }]
  else []

/-- The single nonlinearity spec inserted for the activation name `a`
carried by the spec `d` (src/src/convnet_net.ts, lines 85-92). -/
def actSingle (a : Activation) (d : SugarDef) : SugarDef :=
  match a with
  | Activation.relu => { type := LType.relu }
  | Activation.sigmoid => { type := LType.sigmoid }
  | Activation.tanh => { type := LType.tanh }
  | Activation.maxout => { type := LType.maxout, group_size := some (d.group_size.getD 2) }

/-- The nonlinearity specs pushed after a spec carrying an `activation`
field (src/src/convnet_net.ts, lines 84-94); the typed specification
language admits exactly the four supported names, so the error branch of
the source cascade is unreachable. -/
def actSpec (d : SugarDef) : List SugarDef :=
  match d.activation with
  | none => []
  | some a => [actSingle a d]

/-- The dropout spec pushed after a non-dropout spec carrying `drop_prob`
(src/src/convnet_net.ts, lines 95-97). -/
def dropSpec (d : SugarDef) : List SugarDef :=
  if d.drop_prob.isSome ∧ d.type ≠ LType.dropout then
    [{ type := LType.dropout, drop_prob := d.drop_prob }]
  else []

/-- The records pushed by one iteration of the desugaring loop
(src/src/convnet_net.ts, lines 62-99) for the current spec `d`: the loss
prefix, then the (bias-defaulted) spec itself, then its activation spec,
then its dropout spec. -/
def expandDef (d : SugarDef) : List SugarDef :=
  lossPre d ++ [setBiasPref d] ++ actSpec (setBiasPref d) ++ dropSpec (setBiasPref d)

/-- The `desugar` pass of `Net.makeLayers` (src/src/convnet_net.ts, lines
60-102): every iteration of its loop appends records determined by the
current spec alone, so the pass is the concatenation of the per-spec
expansions. -/
def desugar (defs : List SugarDef) : List SugarDef :=
  defs.flatMap expandDef

/-- Concrete spec for C4: a fully-connected spec carrying both an
`activation` field and a `drop_prob` field. -/
def sugarFcBoth : SugarDef :=
  { type := LType.fc, num_neurons := some 5, activation := some Activation.relu,
    drop_prob := some (1/2) }

/-- Concrete loss-type spec for the C4 witness. -/
def sugarSoftmax : SugarDef :=
  { type := LType.softmax, num_classes := some 4 }

/-- Concrete volume for the C10 witness: a 2x1x1 volume holding `[5, 7]`. -/
def poolVolA : Vol :=
  ⟨2, 1, 1, [5, 7], [0, 0]⟩

/-- Concrete volume for the C10 witness: a 1x1x1 volume holding `[-100000]`,
below the pooling sentinel `-99999`. -/
def poolVolB : Vol :=
  ⟨1, 1, 1, [-100000], [0]⟩

/-- Concrete serialized maxout record for the C8 counterexample:
`out_sx = out_sy = 1`, `out_depth = 3`, `group_size = 2`. -/
def maxoutJsonC8 : SerializedMaxout :=
  ⟨1, 1, 3, 2⟩

/-! ## Remaining layer states and forward passes (for the Net round trip) -/

/-- State of an `InputLayer` (src/src/index.ts second part, lines 53-96). -/
structure InputLayer where
  out_sx : Nat
  out_sy : Nat
  out_depth : Nat
deriving DecidableEq

/-- State of a `ReluLayer` (dimensions only; its forward reads none of
them). -/
structure ReluLayer where
  out_sx : Nat
  out_sy : Nat
  out_depth : Nat
deriving DecidableEq

/-- State of a `SigmoidLayer`. -/
structure SigmoidLayer where
  out_sx : Nat
  out_sy : Nat
  out_depth : Nat
deriving DecidableEq

/-- State of a `TanhLayer`. -/
structure TanhLayer where
  out_sx : Nat
  out_sy : Nat
  out_depth : Nat
deriving DecidableEq

/-- State of a `FullyConnLayer` (src/unnamed/part_000, lines 357-460). -/
structure FullyConnLayer where
  out_sx : Nat
  out_sy : Nat
  out_depth : Nat
  num_inputs : Nat
  l1_decay_mul : ℚ
  l2_decay_mul : ℚ
  filters : List Vol
  biases : Vol
deriving DecidableEq

/-- Modelled from the spec: state of the
`LocalResponseNormalizationLayer`, whose source file
(`convnet_layers_normalization.ts`) is not under `src/`: normalization
constants `k`, `n` (neighborhood size), `alpha`, `beta` and the output
dimensions. -/
structure LrnLayer where
  k : ℚ
  n : Nat
  alpha : ℚ
  beta : ℚ
  out_sx : Nat
  out_sy : Nat
  out_depth : Nat
deriving DecidableEq

/-- `SigmoidLayer.forward` (src/src/convnet_layers_nonlinearities.ts, lines
97-108): `V2 = V.cloneAndZero()`, then `V2.w[i] = 1/(1+exp(-V.w[i]))` for
`i < V.w.length`; `Math.exp` is the abstract parameter `exp`. -/
def sigmoidForward (exp : ℚ → ℚ) (V : Vol) : Vol :=
  let V2 := V.cloneAndZero
  { V2 with
    w := (List.range V.w.length).foldl
      (fun acc i => acc.set i (1 / (1 + exp (-(V.w.getD i 0))))) V2.w }

/-- The `tanh` helper (src/src/convnet_layers_nonlinearities.ts, lines
274-277): `y = exp(2x); (y-1)/(y+1)`. -/
def tanhFun (exp : ℚ → ℚ) (x : ℚ) : ℚ :=
  (exp (2 * x) - 1) / (exp (2 * x) + 1)

/-- `TanhLayer.forward` (lines 289-298). -/
def tanhForward (exp : ℚ → ℚ) (V : Vol) : Vol :=
  let V2 := V.cloneAndZero
  { V2 with
    w := (List.range V.w.length).foldl
      (fun acc i => acc.set i (tanhFun exp (V.w.getD i 0))) V2.w }

/-- `MaxoutLayer.forward` (lines 169-217): the flat path when
`out_sx === 1 && out_sy === 1`, the coordinate path otherwise. -/
def maxoutForward (st : MaxoutLayer) (V : Vol) : List ℚ × List Int :=
  if st.out_sx = 1 ∧ st.out_sy = 1 then maxoutForwardFlat st V else maxoutForwardCoord st V

/-- The inner three loops of `ConvLayer.forward` (src/unnamed/part_000,
lines 226-239): the filter `f` convolved at input position `(x, y)`,
skipping coordinates outside the input. -/
def convFilterAt (f : Vol) (V : Vol) (x y : Int) : ℚ :=
  ((List.range f.sy).map fun (fy : Nat) =>
    ((List.range f.sx).map fun (fx : Nat) =>
      if 0 ≤ y + (fy : Int) ∧ y + (fy : Int) < (V.sy : Int) ∧
          0 ≤ x + (fx : Int) ∧ x + (fx : Int) < (V.sx : Int) then
        ((List.range f.depth).map fun (fd : Nat) =>
          f.w.getD (((f.sx * fy) + fx) * f.depth + fd) 0 *
            V.w.getD ((((V.sx : Int) * (y + (fy : Int))) + (x + (fx : Int))) *
              (V.depth : Int) + (fd : Int)).toNat 0).sum
      else 0).sum).sum

/-- `ConvLayer.forward` (src/unnamed/part_000, lines 208-247): output
position `(ax, ay, d)` (flat index `((out_sx*ay)+ax)*out_depth + d`, written
once via `A.set`) holds the convolution of filter `d` at
`(stride*ax - pad, stride*ay - pad)` plus the channel bias. -/
def convForward (st : ConvLayer) (V : Vol) : Vol :=
  let osx := st.out_sx.toNat
  let osy := st.out_sy.toNat
  let od := st.out_depth
  ⟨osx, osy, od,
    (List.range (osx * osy * od)).map fun kk =>
      convFilterAt (st.filters.getD (kk % od) ⟨0, 0, 0, [], []⟩) V
          (st.stride * (((kk / od) % osx : Nat) : Int) - st.pad)
          (st.stride * ((kk / (od * osx) : Nat) : Int) - st.pad) +
        st.biases.w.getD (kk % od) 0,
    zeros (osx * osy * od)⟩

/-- `FullyConnLayer.forward` (src/unnamed/part_000, lines 383-398): each
output unit is the dot product of the first `num_inputs` input activations
with its filter, plus its bias. -/
def fcForward (st : FullyConnLayer) (V : Vol) : Vol :=
  ⟨1, 1, st.out_depth,
    (List.range st.out_depth).map fun i =>
      ((List.range st.num_inputs).map fun d =>
        V.w.getD d 0 * (st.filters.getD i ⟨0, 0, 0, [], []⟩).w.getD d 0).sum +
        st.biases.w.getD i 0,
    zeros st.out_depth⟩

/-- `SoftmaxLayer.forward` (src/unnamed/part_001, lines 43-73): maximum
activation over the first `out_depth` inputs (scan from index 1 seeded with
`V.w[0]`), shifted exponentials, and normalization to probabilities. -/
def softmaxForward (exp : ℚ → ℚ) (st : SoftmaxLayer) (V : Vol) : Vol :=
  let amax := (List.range' 1 (st.out_depth - 1)).foldl
    (fun a i => if V.w.getD i 0 > a then V.w.getD i 0 else a) (V.w.getD 0 0)
  let es := (List.range st.out_depth).map fun i => exp (V.w.getD i 0 - amax)
  ⟨1, 1, st.out_depth, es.map (fun e => e / es.sum), zeros st.out_depth⟩

/-- Modelled from the spec: `LocalResponseNormalizationLayer.forward`
(source file missing) — each activation is divided by a power
(`Math.pow`, the abstract parameter `pow`) of `k + alpha * S` where `S` is
the sum of squares of the activations within depth radius `floor(n/2)` at
the same spatial position. -/
def lrnForward (pow : ℚ → ℚ → ℚ) (st : LrnLayer) (V : Vol) : Vol :=
  ⟨V.sx, V.sy, V.depth,
    (List.range V.w.length).map fun kk =>
      let d := kk % V.depth
      let x := (kk / V.depth) % V.sx
      let y := kk / (V.depth * V.sx)
      let S := ((List.range V.depth).map fun q =>
        if (d : Int) - (st.n / 2 : Nat) ≤ (q : Int) ∧ (q : Int) ≤ (d : Int) + (st.n / 2 : Nat)
        then V.get x y q * V.get x y q else 0).sum
      V.w.getD kk 0 / pow (st.k + st.alpha * S) st.beta,
    zeros (V.sx * V.sy * V.depth)⟩

/-- The tagged union of the 13 concrete layer variants held by `Net`. -/
inductive Layer
  | input : InputLayer → Layer
  | conv : ConvLayer → Layer
  | fc : FullyConnLayer → Layer
  | pool : PoolLayer → Layer
  | relu : ReluLayer → Layer
  | sigmoid : SigmoidLayer → Layer
  | tanh : TanhLayer → Layer
  | maxout : MaxoutLayer → Layer
  | dropout : DropoutLayer → Layer
  | softmax : SoftmaxLayer → Layer
  | svm : SVMLayer → Layer
  | regression : RegressionLayer → Layer
  | lrn : LrnLayer → Layer
deriving DecidableEq

/-- A layer's forward pass in prediction mode (`is_training = false`, the
default of `Net.forward`): identity for input/svm/regression, the embedded
forward for the rest.  `exp` and `pow` stand for `Math.exp` and `Math.pow`;
the relu case is partial in the source (see `reluForward`), hence the
`Option`.  Dropout in prediction mode consumes no randomness, so an empty
stream is passed. -/
def layerForward (exp : ℚ → ℚ) (pow : ℚ → ℚ → ℚ) (L : Layer) (V : Vol) : Option Vol :=
  match L with
  | Layer.input _ => some V
  | Layer.conv st => some (convForward st V)
  | Layer.fc st => some (fcForward st V)
  | Layer.pool st => some (poolForwardOut st V)
  | Layer.relu _ => reluForward V
  | Layer.sigmoid _ => some (sigmoidForward exp V)
  | Layer.tanh _ => some (tanhForward exp V)
  | Layer.maxout st =>
    some ⟨st.out_sx, st.out_sy, st.out_depth, (maxoutForward st V).1,
      zeros (st.out_sx * st.out_sy * st.out_depth)⟩
  | Layer.dropout st => some (dropoutForward st [] false V).1
  | Layer.softmax st => some (softmaxForward exp st V)
  | Layer.svm _ => some V
  | Layer.regression _ => some V
  | Layer.lrn st => some (lrnForward pow st V)

/-- Serialized record of the dimension-only layers (interfaces
`SerializedInput`, `SerializedRelu`, `SerializedSigmoid`,
`SerializedTanh`): the layer-type tag is carried by the union constructor. -/
structure SerializedDims where
  out_sx : Nat
  out_sy : Nat
  out_depth : Nat
deriving DecidableEq

/-- Serialized record of the loss layers (interfaces `SerializedSoftmax`,
`SerializedSVM`, `SerializedRegression`). -/
structure SerializedLossDims where
  out_sx : Nat
  out_sy : Nat
  out_depth : Nat
  num_inputs : Nat
deriving DecidableEq

/-- Serialized record of a `ConvLayer` (interface `SerializedConv`);
`l1_decay_mul`, `l2_decay_mul` and `pad` are treated as possibly absent by
`fromJSON`. -/
structure SerializedConv where
  out_sx : Int
  out_sy : Int
  out_depth : Nat
  sx : Int
  sy : Int
  stride : Int
  in_depth : Nat
  l1_decay_mul : Option ℚ
  l2_decay_mul : Option ℚ
  pad : Option Int
  filters : List SerializedVol
  biases : SerializedVol
deriving DecidableEq

/-- Serialized record of a `FullyConnLayer` (interface
`SerializedFullyConn`). -/
structure SerializedFullyConn where
  out_sx : Nat
  out_sy : Nat
  out_depth : Nat
  num_inputs : Nat
  l1_decay_mul : Option ℚ
  l2_decay_mul : Option ℚ
  filters : List SerializedVol
  biases : SerializedVol
deriving DecidableEq

/-- Modelled from the spec: serialized record of the normalization layer
(its source file is missing): the constants and the output dimensions. -/
structure SerializedLrn where
  k : ℚ
  n : Nat
  alpha : ℚ
  beta : ℚ
  out_sx : Nat
  out_sy : Nat
  out_depth : Nat
deriving DecidableEq

/-- The tagged union of per-layer serialized records
(`SerializedLayerType` in src/unnamed/part_002). -/
inductive SLayer
  | input : SerializedDims → SLayer
  | relu : SerializedDims → SLayer
  | sigmoid : SerializedDims → SLayer
  | tanh : SerializedDims → SLayer
  | maxout : SerializedMaxout → SLayer
  | conv : SerializedConv → SLayer
  | pool : SerializedPool → SLayer
  | fc : SerializedFullyConn → SLayer
  | lrn : SerializedLrn → SLayer
  | dropout : SerializedDropout → SLayer
  | softmax : SerializedLossDims → SLayer
  | svm : SerializedLossDims → SLayer
  | regression : SerializedLossDims → SLayer
deriving DecidableEq

/-- `ConvLayer.toJSON` (src/unnamed/part_000, lines 295-317). -/
def ConvLayer.toJSON (st : ConvLayer) : SerializedConv :=
  { out_sx := st.out_sx
    out_sy := st.out_sy
    out_depth := st.out_depth
    sx := st.sx
    sy := st.sy
    stride := st.stride
    in_depth := st.in_depth
    l1_decay_mul := some st.l1_decay_mul
    l2_decay_mul := some st.l2_decay_mul
    pad := some st.pad
    filters := st.filters.map Vol.toJSON
    biases := st.biases.toJSON }

/-- `ConvLayer.fromJSON` (src/unnamed/part_000, lines 318-340): decay
multipliers default to 1.0 and `pad` to 0 when absent; filters and biases
are rebuilt through `Vol.fromJSON` (zero gradients). -/
def ConvLayer.fromJSON (j : SerializedConv) : ConvLayer :=
  { out_sx := j.out_sx
    out_sy := j.out_sy
    out_depth := j.out_depth
    sx := j.sx
    sy := j.sy
    stride := j.stride
    in_depth := j.in_depth
    l1_decay_mul := j.l1_decay_mul.getD 1
    l2_decay_mul := j.l2_decay_mul.getD 1
    pad := j.pad.getD 0
    filters := j.filters.map Vol.fromJSON
    biases := Vol.fromJSON j.biases }

/-- `FullyConnLayer.toJSON` (src/unnamed/part_000, lines 422-440). -/
def FullyConnLayer.toJSON (st : FullyConnLayer) : SerializedFullyConn :=
  { out_sx := st.out_sx
    out_sy := st.out_sy
    out_depth := st.out_depth
    num_inputs := st.num_inputs
    l1_decay_mul := some st.l1_decay_mul
    l2_decay_mul := some st.l2_decay_mul
    filters := st.filters.map Vol.toJSON
    biases := st.biases.toJSON }

/-- `FullyConnLayer.fromJSON` (src/unnamed/part_000, lines 441-459). -/
def FullyConnLayer.fromJSON (j : SerializedFullyConn) : FullyConnLayer :=
  { out_sx := j.out_sx
    out_sy := j.out_sy
    out_depth := j.out_depth
    num_inputs := j.num_inputs
    l1_decay_mul := j.l1_decay_mul.getD 1
    l2_decay_mul := j.l2_decay_mul.getD 1
    filters := j.filters.map Vol.fromJSON
    biases := Vol.fromJSON j.biases }

/-- `Net.toJSON` dispatching to each layer's `toJSON`
(src/src/convnet_net.ts, lines 190-197). -/
def layerToJSON (L : Layer) : SLayer :=
  match L with
  | Layer.input st => SLayer.input ⟨st.out_sx, st.out_sy, st.out_depth⟩
  | Layer.conv st => SLayer.conv st.toJSON
  | Layer.fc st => SLayer.fc st.toJSON
  | Layer.pool st => SLayer.pool st.toJSON
  | Layer.relu st => SLayer.relu ⟨st.out_sx, st.out_sy, st.out_depth⟩
  | Layer.sigmoid st => SLayer.sigmoid ⟨st.out_sx, st.out_sy, st.out_depth⟩
  | Layer.tanh st => SLayer.tanh ⟨st.out_sx, st.out_sy, st.out_depth⟩
  | Layer.maxout st => SLayer.maxout st.toJSON
  | Layer.dropout st => SLayer.dropout st.toJSON
  | Layer.softmax st => SLayer.softmax ⟨st.out_sx, st.out_sy, st.out_depth, st.num_inputs⟩
  | Layer.svm st => SLayer.svm ⟨st.out_sx, st.out_sy, st.out_depth, st.num_inputs⟩
  | Layer.regression st =>
    SLayer.regression ⟨st.out_sx, st.out_sy, st.out_depth, st.num_inputs⟩
  | Layer.lrn st =>
    SLayer.lrn ⟨st.k, st.n, st.alpha, st.beta, st.out_sx, st.out_sy, st.out_depth⟩

/-- `Net.fromJSON` dispatching on the layer-type tag to rebuild each
concrete variant (src/src/convnet_net.ts, lines 198-220). -/
def layerFromJSON (j : SLayer) : Layer :=
  match j with
  | SLayer.input r => Layer.input ⟨r.out_sx, r.out_sy, r.out_depth⟩
  | SLayer.conv r => Layer.conv (ConvLayer.fromJSON r)
  | SLayer.fc r => Layer.fc (FullyConnLayer.fromJSON r)
  | SLayer.pool r => Layer.pool (PoolLayer.fromJSON r)
  | SLayer.relu r => Layer.relu ⟨r.out_sx, r.out_sy, r.out_depth⟩
  | SLayer.sigmoid r => Layer.sigmoid ⟨r.out_sx, r.out_sy, r.out_depth⟩
  | SLayer.tanh r => Layer.tanh ⟨r.out_sx, r.out_sy, r.out_depth⟩
  | SLayer.maxout r => Layer.maxout (MaxoutLayer.fromJSON r)
  | SLayer.dropout r => Layer.dropout (DropoutLayer.fromJSON r)
  | SLayer.softmax r => Layer.softmax ⟨r.out_sx, r.out_sy, r.out_depth, r.num_inputs⟩
  | SLayer.svm r => Layer.svm ⟨r.out_sx, r.out_sy, r.out_depth, r.num_inputs⟩
  | SLayer.regression r =>
    Layer.regression ⟨r.out_sx, r.out_sy, r.out_depth, r.num_inputs⟩
  | SLayer.lrn r => Layer.lrn ⟨r.k, r.n, r.alpha, r.beta, r.out_sx, r.out_sy, r.out_depth⟩

/-- `Net.toJSON` (src/src/convnet_net.ts, lines 190-197). -/
def netToJSON (net : List Layer) : List SLayer :=
  net.map layerToJSON

/-- `Net.fromJSON` (src/src/convnet_net.ts, lines 198-220). -/
def netFromJSON (j : List SLayer) : List Layer :=
  j.map layerFromJSON

/-- `Net.forward` in prediction mode (src/src/convnet_net.ts, lines
136-143): the input volume threaded through every layer's forward in
order. -/
def netForward (exp : ℚ → ℚ) (pow : ℚ → ℚ → ℚ) (net : List Layer) (V : Vol) : Option Vol :=
  net.foldl (fun acc L => acc.bind (layerForward exp pow L)) (some V)

/-! ## Claim theorems: C1, C3, C7 -/

/-- Concrete failing input for claim C1: a two-element volume whose second
activation is negative. -/
def reluBugVol : Vol :=
  ⟨1, 1, 2, [1, -1], [0, 0]⟩

/-- C1: `ReluLayer.forward` is claimed to threshold every negative activation
to zero.  The code returns from inside the loop after processing only index
0, so on the input `[1, -1]` the output is `[1, -1]` while the elementwise
`max(0, x)` map (the layer's own documented contract) yields `[1, 0]`. -/
theorem reluForward_not_elementwise :
    (reluForward reluBugVol).map Vol.w = some [1, -1] ∧
      [(1 : ℚ), -1] ≠ [max 0 (1 : ℚ), max 0 (-1 : ℚ)] := by
  constructor
  · rfl
  · intro h
    have h2 := List.head_eq_of_cons_eq (List.tail_eq_of_cons_eq h)
    norm_num at h2

/-- Concrete configuration for C3: `in_sx=5, sx=3, stride=1, pad=0`. -/
def convOptsPad0 : ConvOpts :=
  { sx := 3, filters := 1, in_depth := 1, in_sx := 5, in_sy := 5, stride := some 1, pad := some 0 }

/-- Concrete configuration for C3: `in_sx=5, sx=3, stride=1, pad=1`. -/
def convOptsPad1 : ConvOpts :=
  { sx := 3, filters := 1, in_depth := 1, in_sx := 5, in_sy := 5, stride := some 1, pad := some 1 }

/-- C3: for every `ConvLayer` and `PoolLayer` configuration the computed
output spatial size per axis is `floor((in_size + 2*pad - filter_size)/stride
+ 1)` (with the source defaults `sy := sx`, conv `stride := 1`, pool
`stride := 2`, `pad := 0`); in particular `in_sx=5, sx=3, stride=1, pad=0`
gives 3 and `pad=1` gives 5. -/
theorem conv_pool_out_size :
    (∀ o : ConvOpts,
      (mkConvLayer o).out_sx =
        Int.floor (((o.in_sx : ℚ) + 2 * ((o.pad.getD 0 : Int) : ℚ) - (o.sx : ℚ)) /
          ((o.stride.getD 1 : Int) : ℚ) + 1) ∧
      (mkConvLayer o).out_sy =
        Int.floor (((o.in_sy : ℚ) + 2 * ((o.pad.getD 0 : Int) : ℚ) - ((o.sy.getD o.sx : Int) : ℚ)) /
          ((o.stride.getD 1 : Int) : ℚ) + 1)) ∧
    (∀ o : PoolOpts,
      (mkPoolLayer o).out_sx =
        Int.floor (((o.in_sx : ℚ) + 2 * ((o.pad.getD 0 : Int) : ℚ) - (o.sx : ℚ)) /
          ((o.stride.getD 2 : Int) : ℚ) + 1) ∧
      (mkPoolLayer o).out_sy =
        Int.floor (((o.in_sy : ℚ) + 2 * ((o.pad.getD 0 : Int) : ℚ) - ((o.sy.getD o.sx : Int) : ℚ)) /
          ((o.stride.getD 2 : Int) : ℚ) + 1)) ∧
    (mkConvLayer convOptsPad0).out_sx = 3 ∧ (mkConvLayer convOptsPad1).out_sx = 5 := by
  refine ⟨fun o => ⟨?_, ?_⟩, fun o => ⟨?_, ?_⟩, ?_, ?_⟩ <;>
    simp [mkConvLayer, mkPoolLayer, outSize, convOptsPad0, convOptsPad1, mul_comm]

/-- C7: `DropoutLayer.forward` with `is_training = false` is a deterministic
function of its input: it does not consume the random stream (any two
streams give the same result, and the stream is returned untouched), and
every output element is `drop_prob` times the corresponding input element. -/
theorem dropout_inference_deterministic (st : DropoutLayer) (rng₁ rng₂ : List ℚ) (V : Vol) :
    (dropoutForward st rng₁ false V).1 = (dropoutForward st rng₂ false V).1 ∧
    (dropoutForward st rng₁ false V).2.2 = rng₁ ∧
    (dropoutForward st rng₁ false V).1.w = V.w.map (fun x => x * st.drop_prob) := by
  refine ⟨rfl, rfl, ?_⟩
  simp [dropoutForward, Vol.clone]

/-- C8 counterexample: after `MaxoutLayer.fromJSON` of a record with
`out_sx = out_sy = 1`, `out_depth = 3` and `group_size = 2`, the switch
buffer has length 2 (`group_size`) while `out_sx*out_sy*out_depth = 3`, so
the claimed invariant fails on reconstruction. -/
theorem maxout_fromJSON_switch_length_mismatch :
    (MaxoutLayer.fromJSON maxoutJsonC8).switches.length = 2 ∧
    (MaxoutLayer.fromJSON maxoutJsonC8).out_sx * (MaxoutLayer.fromJSON maxoutJsonC8).out_sy *
      (MaxoutLayer.fromJSON maxoutJsonC8).out_depth = 3 ∧
    (2 : Nat) ≠ 3 := by
  refine ⟨rfl, rfl, by decide⟩

/-- C8 (amended): pool's `switchx`/`switchy` and dropout's `dropped` mask are
zero-filled (resp. all-false) buffers of length `out_sx*out_sy*out_depth`
after both construction and `fromJSON`; maxout's `switches` has that length
after construction, but after `fromJSON` it is a zero-filled buffer of
length `group_size` instead. -/
theorem switch_mask_reconstruction :
    (∀ o : PoolOpts,
      (mkPoolLayer o).switchx =
        List.replicate ((mkPoolLayer o).out_sx * (mkPoolLayer o).out_sy *
          ((mkPoolLayer o).out_depth : Int)).toNat 0 ∧
      (mkPoolLayer o).switchy =
        List.replicate ((mkPoolLayer o).out_sx * (mkPoolLayer o).out_sy *
          ((mkPoolLayer o).out_depth : Int)).toNat 0) ∧
    (∀ j : SerializedPool,
      (PoolLayer.fromJSON j).switchx =
        List.replicate (j.out_sx * j.out_sy * (j.out_depth : Int)).toNat 0 ∧
      (PoolLayer.fromJSON j).switchy =
        List.replicate (j.out_sx * j.out_sy * (j.out_depth : Int)).toNat 0) ∧
    (∀ o : MaxoutOpts,
      (mkMaxoutLayer o).switches =
        List.replicate ((mkMaxoutLayer o).out_sx * (mkMaxoutLayer o).out_sy *
          (mkMaxoutLayer o).out_depth) 0) ∧
    (∀ j : SerializedMaxout,
      (MaxoutLayer.fromJSON j).switches = List.replicate j.group_size 0) ∧
    (∀ o : DropoutOpts,
      (mkDropoutLayer o).dropped =
        List.replicate ((mkDropoutLayer o).out_sx * (mkDropoutLayer o).out_sy *
          (mkDropoutLayer o).out_depth) false) ∧
    (∀ j : SerializedDropout,
      (DropoutLayer.fromJSON j).dropped =
        List.replicate (j.out_sx * j.out_sy * j.out_depth) false) := by
  refine ⟨fun o => ⟨?_, ?_⟩, fun j => ⟨?_, ?_⟩, fun o => ?_, fun j => ?_, fun o => ?_,
    fun j => ?_⟩ <;>
    simp [mkPoolLayer, PoolLayer.fromJSON, mkMaxoutLayer, MaxoutLayer.fromJSON,
      mkDropoutLayer, DropoutLayer.fromJSON, zeros, List.map_replicate]

/-! ## Helper lemmas about buffer reads and writes -/

theorem getD_set_self (l : List ℚ) (i : Nat) (a : ℚ) (h : i < l.length) :
    (l.set i a).getD i 0 = a := by
  simp [List.getD_eq_getElem?_getD, List.getElem?_set_self', List.getElem?_eq_getElem h]

theorem getD_set_ne (l : List ℚ) (i j : Nat) (a : ℚ) (h : i ≠ j) :
    (l.set i a).getD j 0 = l.getD j 0 := by
  simp [List.getD_eq_getElem?_getD, List.getElem?_set_ne h]

theorem getD_zeros (n : Nat) (j : Nat) : (zeros n).getD j 0 = 0 := by
  rcases lt_or_le j n with h | h
  · simp [zeros, List.getD_eq_getElem?_getD, List.getElem?_replicate, h]
  · simp [zeros, List.getD_eq_default, h]

/-! ## C2: SoftmaxLayer.backward on an out-of-range class index -/

/-- C2 counterexample: with cached probabilities `[1/2, 1/2]` and the
out-of-range class index `2`, `SoftmaxLayer.backward` does not raise a
distinguished error: it returns normally (`Except.ok`), with the loss `NaN`
(`none`, from `-Math.log(undefined)`) and the gradient set to `p_i`. -/
theorem softmaxBackward_out_of_range_returns :
    softmaxBackward (fun q => q) [1/2, 1/2] 2 = Except.ok ([1/2, 1/2], none) ∧
    (softmaxBackward (fun q => q) [1/2, 1/2] 2).isOk = true := by
  constructor
  · unfold softmaxBackward jsGet softmaxBackwardGrad
    norm_num [List.range_succ]
  · rfl

/-- C2 (amended): `SoftmaxLayer.backward` never raises for a numeric class
index.  For `y` outside `[0, out_depth)` it returns normally with loss `NaN`
(`none`); for in-range `y` it returns the loss `-log(p_y)`.  In both cases
each input gradient is `p_i - 1{i==y}`. -/
theorem softmaxBackward_loss_and_grad (log : ℚ → ℚ) (es : List ℚ) (y : Int) :
    (softmaxBackward log es y).isOk = true ∧
    (∀ i : Nat, i < es.length →
      (softmaxBackwardGrad es y).getD i 0 = es.getD i 0 - (if (i : Int) = y then 1 else 0)) ∧
    (¬ (0 ≤ y ∧ y < (es.length : Int)) →
      softmaxBackward log es y = Except.ok (softmaxBackwardGrad es y, none)) ∧
    (0 ≤ y → y < (es.length : Int) →
      softmaxBackward log es y =
        Except.ok (softmaxBackwardGrad es y, some (-(log (es.getD y.toNat 0))))) := by
  refine ⟨rfl, ?_, ?_, ?_⟩
  · intro i hi
    simp [softmaxBackwardGrad, List.getD_eq_getElem?_getD, List.getElem?_map,
      List.getElem?_range, hi]
  · intro h
    simp [softmaxBackward, jsGet, h]
  · intro h1 h2
    simp [softmaxBackward, jsGet, h1, h2]

/-- Closed witness for C2's amended theorem at the concrete probability
vector `[3/4, 1/4]`, applying it at the in-range index 1, at gradient
position 0, and at the out-of-range index -1. -/
theorem softmaxBackward_loss_and_grad_witness :
    ((softmaxBackwardGrad [3/4, 1/4] 1).getD 0 0 =
      ([3/4, 1/4] : List ℚ).getD 0 0 - (if ((0 : Nat) : Int) = 1 then 1 else 0)) ∧
    (softmaxBackward (fun q => q) [3/4, 1/4] 1 =
      Except.ok (softmaxBackwardGrad [3/4, 1/4] 1,
        some (-((fun q => q) (([3/4, 1/4] : List ℚ).getD ((1 : Int)).toNat 0))))) ∧
    (softmaxBackward (fun q => q) [3/4, 1/4] (-1) =
      Except.ok (softmaxBackwardGrad [3/4, 1/4] (-1), none)) :=
  ⟨(softmaxBackward_loss_and_grad (fun q => q) [3/4, 1/4] 1).2.1 0 (by decide),
    (softmaxBackward_loss_and_grad (fun q => q) [3/4, 1/4] 1).2.2.2 (by decide) (by decide),
    (softmaxBackward_loss_and_grad (fun q => q) [3/4, 1/4] (-1)).2.2.1 (by decide)⟩

/-! ## C6: SVMLayer.backward hinge loss -/

theorem svmStep_viol (w : List ℚ) (y : Nat) (p : List ℚ × ℚ) (i : Nat)
    (hiy : ¬ i = y) (hv : 0 < w.getD i 0 - w.getD y 0 + 1) :
    svmStep w y p i =
      ((p.1.set i (p.1.getD i 0 + 1)).set y
          ((p.1.set i (p.1.getD i 0 + 1)).getD y 0 - 1),
        p.2 + (w.getD i 0 - w.getD y 0 + 1)) := by
  have hm : -(w.getD y 0) + w.getD i 0 + 1 = w.getD i 0 - w.getD y 0 + 1 := by ring
  simp only [svmStep, hm]
  rw [if_neg hiy, if_pos hv]

theorem svmStep_skip (w : List ℚ) (y : Nat) (p : List ℚ × ℚ) (i : Nat)
    (h : i = y ∨ ¬ 0 < w.getD i 0 - w.getD y 0 + 1) :
    svmStep w y p i = p := by
  have hm : -(w.getD y 0) + w.getD i 0 + 1 = w.getD i 0 - w.getD y 0 + 1 := by ring
  simp only [svmStep, hm]
  rcases h with hiy | hv
  · rw [if_pos hiy]
  · by_cases hiy : i = y
    · rw [if_pos hiy]
    · rw [if_neg hiy, if_neg hv]

theorem svmStep_snd (w : List ℚ) (y : Nat) (p : List ℚ × ℚ) (i : Nat) :
    (svmStep w y p i).2 =
      p.2 + (if i ≠ y ∧ 0 < w.getD i 0 - w.getD y 0 + 1
        then w.getD i 0 - w.getD y 0 + 1 else 0) := by
  by_cases hiy : i = y
  · rw [svmStep_skip w y p i (Or.inl hiy),
      if_neg (fun hc => hc.1 hiy)]
    ring
  · by_cases hv : 0 < w.getD i 0 - w.getD y 0 + 1
    · rw [svmStep_viol w y p i hiy hv, if_pos ⟨hiy, hv⟩]
    · rw [svmStep_skip w y p i (Or.inr hv), if_neg (fun hc => hv hc.2)]
      ring

theorem svmStep_fst_length (w : List ℚ) (y : Nat) (p : List ℚ × ℚ) (i : Nat) :
    (svmStep w y p i).1.length = p.1.length := by
  by_cases hiy : i = y
  · rw [svmStep_skip w y p i (Or.inl hiy)]
  · by_cases hv : 0 < w.getD i 0 - w.getD y 0 + 1
    · rw [svmStep_viol w y p i hiy hv]
      simp
    · rw [svmStep_skip w y p i (Or.inr hv)]

theorem svmStep_fst_getD_y (w : List ℚ) (y : Nat) (p : List ℚ × ℚ) (i : Nat)
    (hiy : ¬ i = y) (hv : 0 < w.getD i 0 - w.getD y 0 + 1) (hylen : y < p.1.length) :
    (svmStep w y p i).1.getD y 0 = p.1.getD y 0 - 1 := by
  rw [svmStep_viol w y p i hiy hv]
  dsimp only
  rw [getD_set_self _ y _ (by simpa using hylen), getD_set_ne _ i y _ hiy]

theorem svmStep_fst_getD_i (w : List ℚ) (y : Nat) (p : List ℚ × ℚ) (i : Nat)
    (hiy : ¬ i = y) (hv : 0 < w.getD i 0 - w.getD y 0 + 1) (hilen : i < p.1.length) :
    (svmStep w y p i).1.getD i 0 = p.1.getD i 0 + 1 := by
  rw [svmStep_viol w y p i hiy hv]
  dsimp only
  rw [getD_set_ne _ y i _ (fun h => hiy h.symm), getD_set_self _ i _ hilen]

theorem svmStep_fst_getD_other (w : List ℚ) (y : Nat) (p : List ℚ × ℚ) (i k : Nat)
    (hiy : ¬ i = y) (hv : 0 < w.getD i 0 - w.getD y 0 + 1)
    (hki : ¬ k = i) (hky : ¬ k = y) :
    (svmStep w y p i).1.getD k 0 = p.1.getD k 0 := by
  rw [svmStep_viol w y p i hiy hv]
  dsimp only
  rw [getD_set_ne _ y k _ (fun h => hky h.symm), getD_set_ne _ i k _ (fun h => hki h.symm)]

theorem svmLoop_snd (w : List ℚ) (y : Nat) (is : List Nat) (p : List ℚ × ℚ) :
    (is.foldl (svmStep w y) p).2 =
      p.2 + (is.map fun i => if i ≠ y ∧ 0 < w.getD i 0 - w.getD y 0 + 1
        then w.getD i 0 - w.getD y 0 + 1 else 0).sum := by
  induction is generalizing p with
  | nil => simp
  | cons i is ih =>
    simp only [List.foldl_cons, List.map_cons, List.sum_cons]
    rw [ih, svmStep_snd]
    ring

theorem svmLoop_id (w : List ℚ) (y : Nat) (is : List Nat) (p : List ℚ × ℚ)
    (h : ∀ i ∈ is, i = y ∨ ¬ 0 < w.getD i 0 - w.getD y 0 + 1) :
    is.foldl (svmStep w y) p = p := by
  induction is generalizing p with
  | nil => rfl
  | cons i is ih =>
    rw [List.foldl_cons, svmStep_skip w y p i (h i (List.mem_cons_self i is))]
    exact ih p fun j hj => h j (List.mem_cons_of_mem i hj)

theorem svmLoop_fst (w : List ℚ) (y : Nat) (hy : y < w.length) (is : List Nat)
    (p : List ℚ × ℚ) (hlen : p.1.length = w.length) (hnd : is.Nodup)
    (hbound : ∀ i ∈ is, i < w.length) :
    ∀ j : Nat, j < w.length →
      (is.foldl (svmStep w y) p).1.getD j 0 =
        if j = y then
          p.1.getD y 0 -
            ((is.countP fun i =>
              decide (i ≠ y) && decide (0 < w.getD i 0 - w.getD y 0 + 1) : Nat) : ℚ)
        else if j ∈ is ∧ 0 < w.getD j 0 - w.getD y 0 + 1 then p.1.getD j 0 + 1
        else p.1.getD j 0 := by
  induction is generalizing p with
  | nil =>
    intro j hj
    by_cases hjy : j = y <;> simp [hjy]
  | cons i is ih =>
    intro j hj
    have hilen : i < p.1.length := hlen ▸ hbound i (List.mem_cons_self i is)
    have hylen : y < p.1.length := hlen ▸ hy
    have hlen' : (svmStep w y p i).1.length = w.length := by
      rw [svmStep_fst_length]; exact hlen
    have hnd' : is.Nodup := hnd.of_cons
    have hnotmem : i ∉ is := (List.nodup_cons.mp hnd).1
    have hbound' : ∀ k ∈ is, k < w.length := fun k hk =>
      hbound k (List.mem_cons_of_mem i hk)
    rw [List.foldl_cons, ih (svmStep w y p i) hlen' hnd' hbound' j hj]
    by_cases hiy : i = y
    · -- the head index is the ground-truth class, skipped by the loop
      rw [svmStep_skip w y p i (Or.inl hiy)]
      have hcount : (decide (i ≠ y) &&
          decide (0 < w.getD i 0 - w.getD y 0 + 1)) = false := by
        simp [hiy]
      by_cases hjy : j = y
      · rw [if_pos hjy, if_pos hjy, List.countP_cons, hcount]
        norm_num
      · have hjmem : (j ∈ i :: is) ↔ (j ∈ is) :=
          ⟨fun hc => (List.mem_cons.mp hc).resolve_left
              (fun he => hjy (he.trans hiy)),
            fun hr => List.mem_cons_of_mem i hr⟩
        rw [if_neg hjy, if_neg hjy]
        by_cases hjin : j ∈ is ∧ 0 < w.getD j 0 - w.getD y 0 + 1
        · rw [if_pos hjin, if_pos ⟨hjmem.mpr hjin.1, hjin.2⟩]
        · rw [if_neg hjin, if_neg (fun hc => hjin ⟨hjmem.mp hc.1, hc.2⟩)]
    · by_cases hv : 0 < w.getD i 0 - w.getD y 0 + 1
      · -- violating head index: +1 at i, -1 at y
        have hcount : (decide (i ≠ y) &&
            decide (0 < w.getD i 0 - w.getD y 0 + 1)) = true := by
          rw [decide_eq_true hiy, decide_eq_true hv, Bool.and_self]
        have hcc : ((i :: is).countP fun k =>
            decide (k ≠ y) && decide (0 < w.getD k 0 - w.getD y 0 + 1)) =
            (is.countP fun k =>
              decide (k ≠ y) && decide (0 < w.getD k 0 - w.getD y 0 + 1)) + 1 := by
          simp only [List.countP_cons, hcount, if_true]
        by_cases hjy : j = y
        · rw [if_pos hjy, if_pos hjy,
            svmStep_fst_getD_y w y p i hiy hv hylen, hcc]
          push_cast
          ring
        · rw [if_neg hjy, if_neg hjy]
          by_cases hji : j = i
          · have hmem : j ∈ i :: is := by rw [hji]; exact List.mem_cons_self i is
            have hvj : 0 < w.getD j 0 - w.getD y 0 + 1 := by rw [hji]; exact hv
            have hnin : ¬ (j ∈ is ∧ 0 < w.getD j 0 - w.getD y 0 + 1) := by
              intro hc
              exact hnotmem (hji ▸ hc.1)
            rw [if_neg hnin, if_pos ⟨hmem, hvj⟩, hji,
              svmStep_fst_getD_i w y p i hiy hv hilen]
          · have hjmem : (j ∈ i :: is) ↔ (j ∈ is) :=
              ⟨fun hc => (List.mem_cons.mp hc).resolve_left hji,
                fun hr => List.mem_cons_of_mem i hr⟩
            rw [svmStep_fst_getD_other w y p i j hiy hv hji hjy]
            by_cases hjin : j ∈ is ∧ 0 < w.getD j 0 - w.getD y 0 + 1
            · rw [if_pos hjin, if_pos ⟨hjmem.mpr hjin.1, hjin.2⟩]
            · rw [if_neg hjin, if_neg (fun hc => hjin ⟨hjmem.mp hc.1, hc.2⟩)]
      · -- satisfied margin at the head index: the iteration is a no-op
        rw [svmStep_skip w y p i (Or.inr hv)]
        have hcount : (decide (i ≠ y) &&
            decide (0 < w.getD i 0 - w.getD y 0 + 1)) = false := by
          rw [decide_eq_false hv, Bool.and_false]
        have hcc : ((i :: is).countP fun k =>
            decide (k ≠ y) && decide (0 < w.getD k 0 - w.getD y 0 + 1)) =
            (is.countP fun k =>
              decide (k ≠ y) && decide (0 < w.getD k 0 - w.getD y 0 + 1)) := by
          simp [List.countP_cons, hcount]
          exact fun _ => not_lt.mp (by simpa using hv)
        by_cases hjy : j = y
        · rw [if_pos hjy, if_pos hjy, hcc]
        · rw [if_neg hjy, if_neg hjy]
          by_cases hji : j = i
          · subst hji
            rw [if_neg (fun hc => hv hc.2), if_neg (fun hc => hv hc.2)]
          · have hjmem : (j ∈ i :: is) ↔ (j ∈ is) :=
              ⟨fun hc => (List.mem_cons.mp hc).resolve_left hji,
                fun hr => List.mem_cons_of_mem i hr⟩
            by_cases hjin : j ∈ is ∧ 0 < w.getD j 0 - w.getD y 0 + 1
            · rw [if_pos hjin, if_pos ⟨hjmem.mpr hjin.1, hjin.2⟩]
            · rw [if_neg hjin, if_neg (fun hc => hjin ⟨hjmem.mp hc.1, hc.2⟩)]

theorem svm_backward_hinge (w : List ℚ) (y : Nat) (hy : y < w.length) :
    ((svmBackward w y).2 =
      ((List.range w.length).map fun i =>
        if i ≠ y ∧ 0 < w.getD i 0 - w.getD y 0 + 1
        then w.getD i 0 - w.getD y 0 + 1 else 0).sum) ∧
    (∀ j, j < w.length → j ≠ y →
      (svmBackward w y).1.getD j 0 =
        if 0 < w.getD j 0 - w.getD y 0 + 1 then 1 else 0) ∧
    ((svmBackward w y).1.getD y 0 =
      -(((List.range w.length).countP fun i =>
          decide (i ≠ y) && decide (0 < w.getD i 0 - w.getD y 0 + 1) : Nat) : ℚ)) ∧
    ((∀ i, i < w.length → i ≠ y → w.getD i 0 - w.getD y 0 + 1 ≤ 0) →
      (svmBackward w y).1 = zeros w.length ∧ (svmBackward w y).2 = 0) := by
  have hfst := svmLoop_fst w y hy (List.range w.length) (zeros w.length, 0)
    (by simp [zeros]) (List.nodup_range _) (fun i hi => List.mem_range.mp hi)
  refine ⟨?_, ?_, ?_, ?_⟩
  · rw [svmBackward, svmLoop_snd]
    simp
  · intro j hj hjy
    have := hfst j hj
    rw [svmBackward, this, if_neg hjy]
    by_cases hv : 0 < w.getD j 0 - w.getD y 0 + 1
    · rw [if_pos ⟨List.mem_range.mpr hj, hv⟩, if_pos hv, getD_zeros]
      ring
    · have : ¬ (j ∈ List.range w.length ∧ 0 < w.getD j 0 - w.getD y 0 + 1) := by
        intro hc
        exact hv hc.2
      rw [if_neg this, if_neg hv, getD_zeros]
  · have := hfst y hy
    rw [svmBackward, this, if_pos rfl, getD_zeros]
    ring
  · intro hsat
    have hid : (List.range w.length).foldl (svmStep w y) (zeros w.length, 0) =
        (zeros w.length, 0) := by
      apply svmLoop_id
      intro i hi
      by_cases hiy : i = y
      · exact Or.inl hiy
      · exact Or.inr (not_lt.mpr (hsat i (List.mem_range.mp hi) hiy))
    rw [svmBackward, hid]
    exact ⟨rfl, rfl⟩

/-- Closed witness for C6 at `w = [2, 0]`, `y = 0`: `y` is the arg-max class
and the margin is satisfied for class 1 (`0 - 2 + 1 ≤ 0`), so the loss is
zero and the gradient buffer is all-zero. -/
theorem svm_backward_hinge_witness :
    (svmBackward [2, 0] 0).1 = zeros 2 ∧ (svmBackward [2, 0] 0).2 = 0 :=
  (svm_backward_hinge [2, 0] 0 (by norm_num)).2.2.2 (by
    intro i hi hne
    have hi2 : i < 2 := by simpa using hi
    interval_cases i
    · exact absurd rfl hne
    · norm_num [List.getD_cons_succ, List.getD_cons_zero])

/-! ## C10: PoolLayer.forward sentinel behaviour -/

theorem inb_eq_true_iff (V : Vol) (q : Int × Int) :
    ((decide (0 ≤ q.2) && decide (q.2 < (V.sy : Int)) && decide (0 ≤ q.1) &&
      decide (q.1 < (V.sx : Int))) = true) ↔
    (0 ≤ q.2 ∧ q.2 < (V.sy : Int) ∧ 0 ≤ q.1 ∧ q.1 < (V.sx : Int)) := by
  simp [Bool.and_eq_true, decide_eq_true_eq, and_assoc]

theorem inBoundsVals_nil (V : Vol) (d : Nat) : inBoundsVals V d [] = [] := rfl

theorem inBoundsVals_cons_in (V : Vol) (d : Nat) (q : Int × Int) (l : List (Int × Int))
    (hb : 0 ≤ q.2 ∧ q.2 < (V.sy : Int) ∧ 0 ≤ q.1 ∧ q.1 < (V.sx : Int)) :
    inBoundsVals V d (q :: l) = V.get q.1 q.2 d :: inBoundsVals V d l := by
  unfold inBoundsVals
  rw [List.filter_cons, if_pos ((inb_eq_true_iff V q).mpr hb), List.map_cons]

theorem inBoundsVals_cons_out (V : Vol) (d : Nat) (q : Int × Int) (l : List (Int × Int))
    (hb : ¬ (0 ≤ q.2 ∧ q.2 < (V.sy : Int) ∧ 0 ≤ q.1 ∧ q.1 < (V.sx : Int))) :
    inBoundsVals V d (q :: l) = inBoundsVals V d l := by
  unfold inBoundsVals
  have hfalse : (decide (0 ≤ q.2) && decide (q.2 < (V.sy : Int)) && decide (0 ≤ q.1) &&
      decide (q.1 < (V.sx : Int))) = false :=
    Bool.eq_false_iff.mpr (fun hc => hb ((inb_eq_true_iff V q).mp hc))
  rw [List.filter_cons, if_neg (by simp [hfalse])]

theorem poolWindowStep_take (V : Vol) (d : Nat) (st : ℚ × Int × Int) (q : Int × Int)
    (hb : 0 ≤ q.2 ∧ q.2 < (V.sy : Int) ∧ 0 ≤ q.1 ∧ q.1 < (V.sx : Int))
    (hgt : V.get q.1 q.2 d > st.1) :
    poolWindowStep V d st q = (V.get q.1 q.2 d, q.1, q.2) := by
  simp only [poolWindowStep]
  rw [if_pos hb, if_pos hgt]

theorem poolWindowStep_skip (V : Vol) (d : Nat) (st : ℚ × Int × Int) (q : Int × Int)
    (h : ¬ (0 ≤ q.2 ∧ q.2 < (V.sy : Int) ∧ 0 ≤ q.1 ∧ q.1 < (V.sx : Int)) ∨
      ¬ V.get q.1 q.2 d > st.1) :
    poolWindowStep V d st q = st := by
  simp only [poolWindowStep]
  rcases h with hb | hle
  · rw [if_neg hb]
  · by_cases hb : 0 ≤ q.2 ∧ q.2 < (V.sy : Int) ∧ 0 ≤ q.1 ∧ q.1 < (V.sx : Int)
    · rw [if_pos hb, if_neg hle]
    · rw [if_neg hb]

theorem poolScan_ge (V : Vol) (d : Nat) (l : List (Int × Int)) (st : ℚ × Int × Int) :
    st.1 ≤ (l.foldl (poolWindowStep V d) st).1 := by
  induction l generalizing st with
  | nil => exact le_refl _
  | cons q l ih =>
    rw [List.foldl_cons]
    refine le_trans ?_ (ih (poolWindowStep V d st q))
    by_cases hb : 0 ≤ q.2 ∧ q.2 < (V.sy : Int) ∧ 0 ≤ q.1 ∧ q.1 < (V.sx : Int)
    · by_cases hgt : V.get q.1 q.2 d > st.1
      · rw [poolWindowStep_take V d st q hb hgt]
        exact le_of_lt hgt
      · rw [poolWindowStep_skip V d st q (Or.inr hgt)]
    · rw [poolWindowStep_skip V d st q (Or.inl hb)]

theorem poolScan_fst_mem (V : Vol) (d : Nat) (l : List (Int × Int)) (st : ℚ × Int × Int) :
    (l.foldl (poolWindowStep V d) st).1 = st.1 ∨
      (l.foldl (poolWindowStep V d) st).1 ∈ inBoundsVals V d l := by
  induction l generalizing st with
  | nil => exact Or.inl rfl
  | cons q l ih =>
    rw [List.foldl_cons]
    by_cases hb : 0 ≤ q.2 ∧ q.2 < (V.sy : Int) ∧ 0 ≤ q.1 ∧ q.1 < (V.sx : Int)
    · rw [inBoundsVals_cons_in V d q l hb]
      by_cases hgt : V.get q.1 q.2 d > st.1
      · rw [poolWindowStep_take V d st q hb hgt]
        rcases ih (V.get q.1 q.2 d, q.1, q.2) with h | h
        · refine Or.inr ?_
          rw [h]
          exact List.mem_cons_self _ _
        · exact Or.inr (List.mem_cons_of_mem _ h)
      · rw [poolWindowStep_skip V d st q (Or.inr hgt)]
        rcases ih st with h | h
        · exact Or.inl h
        · exact Or.inr (List.mem_cons_of_mem _ h)
    · rw [inBoundsVals_cons_out V d q l hb, poolWindowStep_skip V d st q (Or.inl hb)]
      exact ih st

theorem poolScan_ub (V : Vol) (d : Nat) (l : List (Int × Int)) (st : ℚ × Int × Int) :
    ∀ v ∈ inBoundsVals V d l, v ≤ (l.foldl (poolWindowStep V d) st).1 := by
  induction l generalizing st with
  | nil =>
    intro v hv
    rw [inBoundsVals_nil] at hv
    exact absurd hv (List.not_mem_nil v)
  | cons q l ih =>
    intro v hv
    rw [List.foldl_cons]
    by_cases hb : 0 ≤ q.2 ∧ q.2 < (V.sy : Int) ∧ 0 ≤ q.1 ∧ q.1 < (V.sx : Int)
    · rw [inBoundsVals_cons_in V d q l hb] at hv
      by_cases hgt : V.get q.1 q.2 d > st.1
      · rw [poolWindowStep_take V d st q hb hgt]
        rcases List.mem_cons.mp hv with hhead | htail
        · rw [hhead]
          exact poolScan_ge V d l (V.get q.1 q.2 d, q.1, q.2)
        · exact ih (V.get q.1 q.2 d, q.1, q.2) v htail
      · rw [poolWindowStep_skip V d st q (Or.inr hgt)]
        rcases List.mem_cons.mp hv with hhead | htail
        · rw [hhead]
          exact le_trans (not_lt.mp hgt) (poolScan_ge V d l st)
        · exact ih st v htail
    · rw [inBoundsVals_cons_out V d q l hb] at hv
      rw [poolWindowStep_skip V d st q (Or.inl hb)]
      exact ih st v hv

theorem poolScan_const (V : Vol) (d : Nat) (l : List (Int × Int)) (st : ℚ × Int × Int)
    (h : ∀ v ∈ inBoundsVals V d l, ¬ v > st.1) :
    l.foldl (poolWindowStep V d) st = st := by
  induction l with
  | nil => rfl
  | cons q l ih =>
    rw [List.foldl_cons]
    by_cases hb : 0 ≤ q.2 ∧ q.2 < (V.sy : Int) ∧ 0 ≤ q.1 ∧ q.1 < (V.sx : Int)
    · have hstep : poolWindowStep V d st q = st := by
        refine poolWindowStep_skip V d st q (Or.inr ?_)
        refine h (V.get q.1 q.2 d) ?_
        rw [inBoundsVals_cons_in V d q l hb]
        exact List.mem_cons_self _ _
      rw [hstep]
      refine ih ?_
      intro v hv
      refine h v ?_
      rw [inBoundsVals_cons_in V d q l hb]
      exact List.mem_cons_of_mem _ hv
    · rw [poolWindowStep_skip V d st q (Or.inl hb)]
      refine ih ?_
      intro v hv
      refine h v ?_
      rw [inBoundsVals_cons_out V d q l hb]
      exact hv

/-- C10: `PoolLayer.forward` seeds each window's running maximum with the
sentinel `-99999`, so when some in-bounds window activation exceeds
`-99999` the window result is the true maximum of the in-bounds
activations (it is one of them and bounds them all); when every in-bounds
activation is at most `-99999` — including a window entirely outside the
input — the result is the sentinel `-99999` with switch coordinates
`(-1, -1)`. -/
theorem pool_window_sentinel (V : Vol) (d : Nat) (x y : Int) (fsx fsy : Nat) :
    ((∃ v ∈ poolWindowVals V d x y fsx fsy, -99999 < v) →
      (poolWindow V d x y fsx fsy).1 ∈ poolWindowVals V d x y fsx fsy ∧
      ∀ v ∈ poolWindowVals V d x y fsx fsy, v ≤ (poolWindow V d x y fsx fsy).1) ∧
    ((∀ v ∈ poolWindowVals V d x y fsx fsy, v ≤ -99999) →
      poolWindow V d x y fsx fsy = (-99999, -1, -1)) := by
  unfold poolWindowVals poolWindow
  constructor
  · rintro ⟨v, hv, hgt⟩
    have hub := poolScan_ub V d (poolWindowPairs x y fsx fsy) (-99999, -1, -1)
    have hge : (-99999 : ℚ) <
        ((poolWindowPairs x y fsx fsy).foldl (poolWindowStep V d) (-99999, -1, -1)).1 :=
      lt_of_lt_of_le hgt (hub v hv)
    rcases poolScan_fst_mem V d (poolWindowPairs x y fsx fsy) (-99999, -1, -1) with h | h
    · exfalso
      rw [h] at hge
      simp at hge
    · exact ⟨h, hub⟩
  · intro h
    exact poolScan_const V d (poolWindowPairs x y fsx fsy) (-99999, -1, -1)
      (fun v hv => not_lt.mpr (h v hv))

/-- Closed witness for C10: on the 2x1x1 volume `[5, 7]` with a fully
in-bounds 2x1 window the result is a member of the window values; on the
1x1x1 volume `[-100000]` every window value is at most the sentinel, so the
result is `(-99999, -1, -1)`. -/
theorem pool_window_sentinel_witness :
    (poolWindow poolVolA 0 0 0 2 1).1 ∈ poolWindowVals poolVolA 0 0 0 2 1 ∧
    poolWindow poolVolB 0 0 0 1 1 = (-99999, -1, -1) := by
  constructor
  · refine ((pool_window_sentinel poolVolA 0 0 0 2 1).1 ⟨5, ?_, by norm_num⟩).1
    norm_num [poolWindowVals, inBoundsVals, poolWindowPairs, poolVolA, Vol.get,
      Vol.flatIdx, List.range_succ]
  · refine (pool_window_sentinel poolVolB 0 0 0 1 1).2 ?_
    intro v hv
    norm_num [poolWindowVals, inBoundsVals, poolWindowPairs, poolVolB, Vol.get,
      Vol.flatIdx, List.range_succ] at hv
    rw [hv]
    norm_num


/-! ## C4: Net.makeLayers desugaring positions -/

theorem desugar_append (l₁ l₂ : List SugarDef) :
    desugar (l₁ ++ l₂) = desugar l₁ ++ desugar l₂ := by
  simp [desugar]

theorem desugar_cons (d : SugarDef) (l : List SugarDef) :
    desugar (d :: l) = expandDef d ++ desugar l := by
  simp [desugar]

theorem setBiasPref_type (d : SugarDef) : (setBiasPref d).type = d.type := by
  unfold setBiasPref
  split <;> rfl

theorem setBiasPref_activation (d : SugarDef) :
    (setBiasPref d).activation = d.activation := by
  unfold setBiasPref
  split <;> rfl

theorem setBiasPref_drop_prob (d : SugarDef) :
    (setBiasPref d).drop_prob = d.drop_prob := by
  unfold setBiasPref
  split <;> rfl

theorem actSpec_eq_single (d : SugarDef) (a : Activation) (ha : d.activation = some a) :
    actSpec d = [actSingle a d] := by
  unfold actSpec
  rw [ha]

theorem dropSpec_eq_single (d : SugarDef)
    (h : d.drop_prob.isSome ∧ d.type ≠ LType.dropout) :
    dropSpec d = [{ type := LType.dropout, drop_prob := d.drop_prob }] := by
  unfold dropSpec
  rw [if_pos h]

/-- C4 counterexample: for the fully-connected spec carrying both
`activation = relu` and `drop_prob = 1/2`, the desugared list places the
relu spec — not the dropout spec — immediately after the owner spec, so the
claimed "dropout immediately after any non-dropout spec carrying drop_prob"
fails at this input. -/
theorem desugar_dropout_not_immediately_after :
    desugar [sugarFcBoth] =
      [{ sugarFcBoth with bias_pref := some (1/10) },
        { type := LType.relu },
        { type := LType.dropout, drop_prob := some (1/2) }] ∧
    ({ type := LType.relu } : SugarDef).type ≠ LType.dropout := by
  constructor
  · rfl
  · decide

/-- C4 (amended): in `Net.makeLayers`' desugaring, (1) a fully-connected
spec sized `num_classes` is inserted immediately before every
softmax/svm/regression spec; (2) the corresponding nonlinearity spec is
inserted immediately after any spec carrying an `activation` field; (3) a
dropout spec with the same `drop_prob` is inserted after any non-dropout
spec carrying a `drop_prob` field — immediately after that spec's
activation insert when one is present, otherwise immediately after the
spec itself. -/
theorem desugar_insertion_positions (pre post : List SugarDef) (d : SugarDef) :
    ((d.type = LType.softmax ∨ d.type = LType.svm ∨ d.type = LType.regression) →
      desugar (pre ++ d :: post) =
        desugar pre ++ { type := LType.fc, num_neurons := d.num_classes } ::
          setBiasPref d ::
            (actSpec (setBiasPref d) ++ dropSpec (setBiasPref d) ++ desugar post)) ∧
    (∀ a, d.activation = some a →
      desugar (pre ++ d :: post) =
        desugar pre ++ lossPre d ++ setBiasPref d ::
          actSingle a (setBiasPref d) :: (dropSpec (setBiasPref d) ++ desugar post)) ∧
    ((d.drop_prob.isSome ∧ d.type ≠ LType.dropout) →
      desugar (pre ++ d :: post) =
        desugar pre ++ lossPre d ++ [setBiasPref d] ++ actSpec (setBiasPref d) ++
          ({ type := LType.dropout, drop_prob := d.drop_prob } :: desugar post)) := by
  refine ⟨?_, ?_, ?_⟩
  · intro hloss
    have h1 : lossPre d = [{ type := LType.fc, num_neurons := d.num_classes }] := by
      unfold lossPre
      rw [if_pos hloss]
    rw [desugar_append, desugar_cons, expandDef, h1]
    simp [List.append_assoc]
  · intro a ha
    have h2 : actSpec (setBiasPref d) = [actSingle a (setBiasPref d)] :=
      actSpec_eq_single (setBiasPref d) a (by rw [setBiasPref_activation]; exact ha)
    rw [desugar_append, desugar_cons, expandDef, h2]
    simp [List.append_assoc]
  · intro hd
    have h3 : dropSpec (setBiasPref d) =
        [{ type := LType.dropout, drop_prob := d.drop_prob }] := by
      rw [dropSpec_eq_single (setBiasPref d)
        ⟨by rw [setBiasPref_drop_prob]; exact hd.1, by rw [setBiasPref_type]; exact hd.2⟩,
        setBiasPref_drop_prob]
    rw [desugar_append, desugar_cons, expandDef, h3]
    simp [List.append_assoc]

/-- Closed witness for C4's amended theorem, applying each conjunct at a
concrete spec list: the loss conjunct at a softmax spec, the activation and
dropout conjuncts at the fc spec carrying both sugar fields. -/
theorem desugar_insertion_positions_witness :
    (desugar ([] ++ sugarSoftmax :: []) =
      desugar [] ++ { type := LType.fc, num_neurons := sugarSoftmax.num_classes } ::
        setBiasPref sugarSoftmax ::
          (actSpec (setBiasPref sugarSoftmax) ++ dropSpec (setBiasPref sugarSoftmax) ++
            desugar [])) ∧
    (desugar ([] ++ sugarFcBoth :: []) =
      desugar [] ++ lossPre sugarFcBoth ++ setBiasPref sugarFcBoth ::
        actSingle Activation.relu (setBiasPref sugarFcBoth) ::
          (dropSpec (setBiasPref sugarFcBoth) ++ desugar [])) ∧
    (desugar ([] ++ sugarFcBoth :: []) =
      desugar [] ++ lossPre sugarFcBoth ++ [setBiasPref sugarFcBoth] ++
        actSpec (setBiasPref sugarFcBoth) ++
          ({ type := LType.dropout, drop_prob := sugarFcBoth.drop_prob } :: desugar [])) :=
  ⟨(desugar_insertion_positions [] [] sugarSoftmax).1 (by decide),
    (desugar_insertion_positions [] [] sugarFcBoth).2.1 Activation.relu (by decide),
    (desugar_insertion_positions [] [] sugarFcBoth).2.2 (by decide)⟩

/-! ## C9: the two MaxoutLayer code paths agree on 1x1 outputs -/

theorem maxoutTriples_one_one (n : Nat) :
    maxoutTriples 1 1 n = (List.range n).map fun i => ((0 : Nat), (0 : Nat), i) := by
  simp [maxoutTriples, List.range_succ]

theorem Vol_get_origin (V : Vol) (d : Nat) :
    V.get ((0 : Nat) : Int) ((0 : Nat) : Int) ((d : Nat) : Int) = V.w.getD d 0 := by
  simp [Vol.get, Vol.flatIdx]

theorem maxoutCoordGroup_origin (V : Vol) (ix gs : Nat) :
    maxoutCoordGroup V 0 0 ix gs = maxoutFlatGroup V ix gs := by
  unfold maxoutCoordGroup maxoutFlatGroup
  simp only [Vol_get_origin]

theorem foldl_counter_align1 (g : Nat → ℚ) (h : Nat → Int) :
    ∀ (m k : Nat) (w : List ℚ) (s : List Int),
      (List.range' k m).foldl
        (fun (acc : List ℚ × List Int × Nat) i =>
          (acc.1.set i (g i), acc.2.1.set acc.2.2 (h i), acc.2.2 + 1)) (w, s, k) =
      (((List.range' k m).foldl
          (fun (acc : List ℚ × List Int) i => (acc.1.set i (g i), acc.2.set i (h i)))
          (w, s)).1,
        ((List.range' k m).foldl
          (fun (acc : List ℚ × List Int) i => (acc.1.set i (g i), acc.2.set i (h i)))
          (w, s)).2,
        k + m) := by
  intro m
  induction m with
  | zero =>
    intro k w s
    simp [List.range']
  | succ m ih =>
    intro k w s
    rw [List.range'_succ, List.foldl_cons, List.foldl_cons]
    dsimp only
    rw [ih (k + 1) (w.set k (g k)) (s.set k (h k))]
    have hk : k + 1 + m = k + (m + 1) := by omega
    rw [hk]

theorem foldl_counter_align2 (F : Nat → Nat → List ℚ → List ℚ) :
    ∀ (m k : Nat) (dw : List ℚ),
      ((List.range' k m).foldl
        (fun (acc : List ℚ × Nat) i => (F i acc.2 acc.1, acc.2 + 1)) (dw, k)).1 =
      (List.range' k m).foldl (fun dw i => F i i dw) dw := by
  intro m
  induction m with
  | zero =>
    intro k dw
    simp [List.range']
  | succ m ih =>
    intro k dw
    rw [List.range'_succ, List.foldl_cons, List.foldl_cons]
    dsimp only
    exact ih (k + 1) (F k k dw)

/-- C9: for a `MaxoutLayer` with `out_sx = out_sy = 1` fed a conformant
input tensor (`V.sx = V.sy = 1`), the flat 1-D path and the coordinate
`(x, y)` path of `forward` compute the same output buffer and the same
recorded switches, and the two paths of `backward` compute the same input
gradient buffer. -/
theorem maxout_paths_agree (st : MaxoutLayer) (V : Vol) (out_dw : List ℚ)
    (h1 : st.out_sx = 1) (h2 : st.out_sy = 1) (h3 : V.sx = 1) (h4 : V.sy = 1) :
    maxoutForwardFlat st V = maxoutForwardCoord st V ∧
    maxoutBackwardFlat st V out_dw = maxoutBackwardCoord st V out_dw := by
  constructor
  · unfold maxoutForwardFlat maxoutForwardCoord
    rw [h1, h2, h3, h4, maxoutTriples_one_one, List.foldl_map]
    simp only [List.range_eq_range']
    simp only [Nat.mul_zero, Nat.zero_add, Nat.add_zero, Nat.zero_mul, Nat.mul_one,
      Nat.one_mul, maxoutCoordGroup_origin]
    rw [foldl_counter_align1]
  · unfold maxoutBackwardFlat maxoutBackwardCoord
    rw [h1, h2, maxoutTriples_one_one, List.foldl_map]
    simp only [List.range_eq_range']
    simp only [Nat.cast_zero, Nat.cast_ofNat, mul_zero, zero_add, add_zero, zero_mul,
      Nat.mul_zero, Nat.zero_add, Nat.add_zero, Nat.zero_mul, Nat.one_mul, Nat.mul_one]
    rw [foldl_counter_align2
      (fun i n dw => dw.set (st.switches.getD n 0).toNat (out_dw.getD i 0))]

/-- Closed witness for C9 at a concrete 1x1 maxout layer (`out_depth = 2`,
`group_size = 2`) on a 1x1x4 input. -/
theorem maxout_paths_agree_witness :
    maxoutForwardFlat mxSt mxVol = maxoutForwardCoord mxSt mxVol ∧
    maxoutBackwardFlat mxSt mxVol [5, 7] = maxoutBackwardCoord mxSt mxVol [5, 7] :=
  maxout_paths_agree mxSt mxVol [5, 7] rfl rfl rfl rfl

/-! ## C5: serialization round trip preserves the forward pass -/

theorem foldl_setpair_fst (g : Nat → ℚ) (h : Nat → Int) (l : List Nat) :
    ∀ (w : List ℚ) (s₁ s₂ : List Int),
      (l.foldl (fun (acc : List ℚ × List Int) i => (acc.1.set i (g i), acc.2.set i (h i)))
        (w, s₁)).1 =
      (l.foldl (fun (acc : List ℚ × List Int) i => (acc.1.set i (g i), acc.2.set i (h i)))
        (w, s₂)).1 := by
  induction l with
  | nil =>
    intro w s₁ s₂
    rfl
  | cons i l ih =>
    intro w s₁ s₂
    rw [List.foldl_cons, List.foldl_cons]
    dsimp only
    exact ih (w.set i (g i)) (s₁.set i (h i)) (s₂.set i (h i))

theorem foldl_setcoord_fst (idx : Nat × Nat × Nat → Nat) (g : Nat × Nat × Nat → ℚ)
    (h : Nat × Nat × Nat → Int) (l : List (Nat × Nat × Nat)) :
    ∀ (w : List ℚ) (s₁ s₂ : List Int) (n₁ n₂ : Nat),
      ((l.foldl (fun (acc : List ℚ × List Int × Nat) t =>
          (acc.1.set (idx t) (g t), acc.2.1.set acc.2.2 (h t), acc.2.2 + 1)) (w, s₁, n₁)).1 =
        (l.foldl (fun (acc : List ℚ × List Int × Nat) t =>
          (acc.1.set (idx t) (g t), acc.2.1.set acc.2.2 (h t), acc.2.2 + 1)) (w, s₂, n₂)).1) := by
  induction l with
  | nil =>
    intro w s₁ s₂ n₁ n₂
    rfl
  | cons t l ih =>
    intro w s₁ s₂ n₁ n₂
    rw [List.foldl_cons, List.foldl_cons]
    dsimp only
    exact ih (w.set (idx t) (g t)) (s₁.set n₁ (h t)) (s₂.set n₂ (h t)) (n₁ + 1) (n₂ + 1)

theorem maxoutForwardFlat_fst (st : MaxoutLayer) (s₀ : List Int) (V : Vol) :
    (maxoutForwardFlat { st with switches := s₀ } V).1 = (maxoutForwardFlat st V).1 := by
  unfold maxoutForwardFlat
  exact foldl_setpair_fst
    (fun i => (maxoutFlatGroup V (i * st.group_size) st.group_size).1)
    (fun i => ((i * st.group_size +
      (maxoutFlatGroup V (i * st.group_size) st.group_size).2 : Nat) : Int))
    (List.range st.out_depth) (zeros (st.out_sx * st.out_sy * st.out_depth)) s₀ st.switches

theorem maxoutForwardCoord_fst (st : MaxoutLayer) (s₀ : List Int) (V : Vol) :
    (maxoutForwardCoord { st with switches := s₀ } V).1 = (maxoutForwardCoord st V).1 := by
  unfold maxoutForwardCoord
  dsimp only
  exact foldl_setcoord_fst
    (fun t => ((st.out_sx * t.2.1) + t.1) * st.out_depth + t.2.2)
    (fun t => (maxoutCoordGroup V t.1 t.2.1 (t.2.2 * st.group_size) st.group_size).1)
    (fun t => ((t.2.2 * st.group_size +
      (maxoutCoordGroup V t.1 t.2.1 (t.2.2 * st.group_size) st.group_size).2 : Nat) : Int))
    (maxoutTriples V.sx V.sy st.out_depth)
    (zeros (st.out_sx * st.out_sy * st.out_depth)) s₀ st.switches 0 0

theorem maxoutForward_fst (st : MaxoutLayer) (s₀ : List Int) (V : Vol) :
    (maxoutForward { st with switches := s₀ } V).1 = (maxoutForward st V).1 := by
  unfold maxoutForward
  dsimp only
  by_cases hc : st.out_sx = 1 ∧ st.out_sy = 1
  · rw [if_pos hc, if_pos hc]
    exact maxoutForwardFlat_fst st s₀ V
  · rw [if_neg hc, if_neg hc]
    exact maxoutForwardCoord_fst st s₀ V

theorem maxoutForward_fromJSON_fst (st : MaxoutLayer) (V : Vol) :
    (maxoutForward (MaxoutLayer.fromJSON st.toJSON) V).1 = (maxoutForward st V).1 :=
  maxoutForward_fst st (List.replicate st.group_size 0) V

theorem getD_map_roundTrip (fs : List Vol) (d : Nat) :
    ((fs.map Vol.toJSON).map Vol.fromJSON).getD d ⟨0, 0, 0, [], []⟩ =
      Vol.fromJSON (Vol.toJSON (fs.getD d ⟨0, 0, 0, [], []⟩)) := by
  rw [List.map_map]
  exact List.getD_map fs ⟨0, 0, 0, [], []⟩ (Vol.fromJSON ∘ Vol.toJSON)

theorem convFilterAt_fromJSON (f V : Vol) (x y : Int) :
    convFilterAt (Vol.fromJSON f.toJSON) V x y = convFilterAt f V x y := by
  cases f
  rfl

theorem convForward_roundTrip (st : ConvLayer) (V : Vol) :
    convForward (ConvLayer.fromJSON st.toJSON) V = convForward st V := by
  have hfa : ∀ (d : Nat) (x y : Int),
      convFilterAt (((st.filters.map Vol.toJSON).map Vol.fromJSON).getD d ⟨0, 0, 0, [], []⟩)
          V x y =
        convFilterAt (st.filters.getD d ⟨0, 0, 0, [], []⟩) V x y := by
    intro d x y
    rw [getD_map_roundTrip, convFilterAt_fromJSON]
  unfold convForward
  dsimp only [ConvLayer.fromJSON, ConvLayer.toJSON, Vol.fromJSON, Vol.toJSON, Option.getD]
  simp only [hfa]

theorem fcForward_roundTrip (st : FullyConnLayer) (V : Vol) :
    fcForward (FullyConnLayer.fromJSON st.toJSON) V = fcForward st V := by
  have hfw : ∀ i : Nat,
      (((st.filters.map Vol.toJSON).map Vol.fromJSON).getD i ⟨0, 0, 0, [], []⟩).w =
        (st.filters.getD i ⟨0, 0, 0, [], []⟩).w := by
    intro i
    rw [getD_map_roundTrip]
    rfl
  unfold fcForward
  dsimp only [FullyConnLayer.fromJSON, FullyConnLayer.toJSON, Vol.fromJSON, Vol.toJSON,
    Option.getD]
  simp only [hfw]

theorem layerForward_roundTrip (exp : ℚ → ℚ) (pow : ℚ → ℚ → ℚ) (L : Layer) (V : Vol) :
    layerForward exp pow (layerFromJSON (layerToJSON L)) V = layerForward exp pow L V := by
  cases L with
  | input st => rfl
  | conv st => exact congrArg some (convForward_roundTrip st V)
  | fc st => exact congrArg some (fcForward_roundTrip st V)
  | pool st => rfl
  | relu st => rfl
  | sigmoid st => rfl
  | tanh st => rfl
  | maxout st =>
    dsimp only [layerForward, layerToJSON, layerFromJSON]
    rw [maxoutForward_fromJSON_fst]
    rfl
  | dropout st => rfl
  | softmax st => rfl
  | svm st => rfl
  | regression st => rfl
  | lrn st => rfl

theorem netForward_bind_congr (exp : ℚ → ℚ) (pow : ℚ → ℚ → ℚ) (net : List Layer) :
    ∀ acc : Option Vol,
      net.foldl
        (fun acc L => acc.bind (layerForward exp pow (layerFromJSON (layerToJSON L)))) acc =
      net.foldl (fun acc L => acc.bind (layerForward exp pow L)) acc := by
  induction net with
  | nil =>
    intro acc
    rfl
  | cons L net ih =>
    intro acc
    rw [List.foldl_cons, List.foldl_cons]
    have hbind : acc.bind (layerForward exp pow (layerFromJSON (layerToJSON L))) =
        acc.bind (layerForward exp pow L) := by
      cases acc with
      | none => rfl
      | some v => exact layerForward_roundTrip exp pow L v
    rw [hbind]
    exact ih _

/-- C5: for every network (list of layers with their weights) and every
input tensor, serializing with `Net.toJSON` and reloading with
`Net.fromJSON` yields a network whose prediction-mode forward pass produces
the same output as the original network's, for every interpretation of the
transcendental functions `exp` and `pow` (gradients and switch/mask state
are rebuilt as placeholders and are excluded from the comparison). -/
theorem net_roundtrip_forward (exp : ℚ → ℚ) (pow : ℚ → ℚ → ℚ)
    (net : List Layer) (V : Vol) :
    netForward exp pow (netFromJSON (netToJSON net)) V = netForward exp pow net V := by
  unfold netForward netFromJSON netToJSON
  rw [List.map_map, List.foldl_map]
  simp only [Function.comp]
  exact netForward_bind_congr exp pow net (some V)

end ConvNetJS
